import Mathlib

/-!
# teamsnap-go: link resolution and typed field extraction

A shallow embedding of `teamsnap.go`.  Go's `(value, error)` results are pairs
`α × Option Error` (`none` is Go's `nil` error), so the value returned next to an
error stays visible.  A `for ... range` loop with an early `return` is a
recursion over the list.

The methods of `*Item` hand their work to Go's standard library: `strconv.FormatBool`,
`strconv.FormatFloat`, `strconv.ParseInt`, the conversion `int64(v)` and `time.Parse`.
These are embedded too, after the library's sources (Go 1.22: `strconv/atoi.go`,
`strconv/ftoa.go`, `time/format.go`, `time/time.go`), for the arguments this package
passes: base 10 and bit size 32, format `'f'` with precision 0 and bit size 32, the layout
`time.RFC3339`.  A `float64` is kept as the exact dyadic number it stands for, so that
rounding and truncation are statements about rationals; a Go `string` is a Lean `String`,
whose characters beyond ASCII are, like the bytes that encode them, neither digits nor
signs.

The client methods reach the network only through `query`.  Its four steps outside this
package (`http.NewRequest`, `Client.Do`, `ioutil.ReadAll`, `json.Unmarshal`) are the
fields of an `Http` parameter, and every result of `query`, `Fetch`, `FetchRoot` and
`Initialize` carries the list of addresses on which `query` was called, so that "calls
`query` once" and "calls it not at all" are statements about that list.
-/

namespace Teamsnap

/-! ## Data model -/

/-- An IEEE-754 binary64 datum (Go's `float64`), kept exactly: a NaN, an infinity,
or the finite number `(-1)^neg * mant * 2^exp`. -/
inductive F64 where
  | nan
  | inf (neg : Bool)
  | fin (neg : Bool) (mant : Nat) (exp : Int)
deriving DecidableEq

/-- The dynamic values an `interface{}` holds after `encoding/json` decoding:
`string`, `bool`, `float64`, `nil`, `[]interface{}` and `map[string]interface{}`. -/
inductive Dynamic where
  | str (s : String)
  | bool (b : Bool)
  | float (f : F64)
  | null
  | array (elems : List Dynamic)
  | object (fields : List (String × Dynamic))

/-- The two sentinel causes carried by a `*strconv.NumError`. -/
inductive NumErrKind where
  | syn
  | range
deriving DecidableEq

/-- Go `error` values met in this package: `errors.New(msg)`, `*strconv.NumError`
and `*time.ParseError`. -/
inductive Error where
  | text (msg : String)
  | numError (fn : String) (num : String) (kind : NumErrKind)
  | parseError (layout : String) (value : String)
deriving DecidableEq

/-- Link provides the rel and href for an API call. -/
structure Link where
  Rel : String
  Href : String
deriving DecidableEq

/-- Data is a name/value pair. -/
structure Data where
  Name : String
  Value : Dynamic

/-- Item contains Data and Links for a specific result. -/
structure Item where
  Href : String
  Data : List Data
  Links : List Link

/-- TeamSnap is the main object used to interact with the TeamSnap API. -/
structure TeamSnap where
  AuthToken : String
  Version : String
  RootLinks : List Link
deriving DecidableEq

/-! ## Link resolution -/

/-- The loop of `findHref`: the first link whose `Rel` is `rel` decides. -/
def findHrefLoop (rel : String) : List Link → String × Option Error
  | [] => ("", some (Error.text ("No href found for rel: " ++ rel)))
  | link :: rest => if link.Rel = rel then (link.Href, none) else findHrefLoop rel rest

/-- Method `findHref` of `*TeamSnap`. -/
def findHref (_teamSnap : TeamSnap) (rel : String) (links : List Link) : String × Option Error :=
  findHrefLoop rel links

/-! ## Field lookup -/

/-- The loop of `DataValue`. -/
def dataValueLoop (name : String) : List Data → Dynamic × Option Error
  | [] => (Dynamic.str "", some (Error.text "No match found"))
  | data :: rest => if data.Name = name then (data.Value, none) else dataValueLoop name rest

/-- Method `DataValue` of `*Item`. -/
def DataValue (item : Item) (name : String) : Dynamic × Option Error :=
  dataValueLoop name item.Data

/-! ## Package strconv -/

/-- Go's `strconv.FormatBool`. -/
def FormatBool (b : Bool) : String :=
  if b then "true" else "false"

/-- The largest `uint64`. -/
def maxUint64 : Nat := 2 ^ 64 - 1

/-- The value `ParseUint` gives the byte `c` as a digit: `c - 48` for `0` to `9`,
`lower(c) - 97 + 10` for a letter (with `lower(c) = c | 0x20`), nothing otherwise. -/
def digitVal (c : Char) : Option Nat :=
  if 48 ≤ c.toNat ∧ c.toNat ≤ 57 then some (c.toNat - 48)
  else if 97 ≤ (c.toNat ||| 32) ∧ (c.toNat ||| 32) ≤ 122 then some ((c.toNat ||| 32) - 97 + 10)
  else none

/-- The digit loop of `strconv.ParseUint` (for `base != 0`), from the accumulator `n`.
`uint64` arithmetic wraps modulo `2^64`. -/
def parseUintLoop (s0 : String) (base bitSize : Nat) : List Char → Nat → Nat × Option Error
  | [], n => (n, none)
  | c :: cs, n =>
    match digitVal c with
    | none => (0, some (Error.numError "ParseUint" s0 NumErrKind.syn))
    | some d =>
      if d ≥ base then (0, some (Error.numError "ParseUint" s0 NumErrKind.syn))
      else if n ≥ maxUint64 / base + 1 then
        (2 ^ bitSize - 1, some (Error.numError "ParseUint" s0 NumErrKind.range))
      else
        let n10 := (n * base) % 2 ^ 64
        let n1 := (n10 + d) % 2 ^ 64
        if n1 < n10 ∨ n1 > 2 ^ bitSize - 1 then
          (2 ^ bitSize - 1, some (Error.numError "ParseUint" s0 NumErrKind.range))
        else parseUintLoop s0 base bitSize cs n1

/-- Go's `strconv.ParseUint(s, base, bitSize)` for `2 ≤ base ≤ 36` and
`1 ≤ bitSize ≤ 64`, the only way this package calls it. -/
def ParseUint (s : List Char) (base bitSize : Nat) : Nat × Option Error :=
  if s = [] then (0, some (Error.numError "ParseUint" (String.mk s) NumErrKind.syn))
  else parseUintLoop (String.mk s) base bitSize s 0

/-- Go's `strconv.ParseInt(s, base, bitSize)` for `2 ≤ base ≤ 36` and
`1 ≤ bitSize ≤ 64`. -/
def ParseInt (s : String) (base bitSize : Nat) : Int × Option Error :=
  if s.data = [] then (0, some (Error.numError "ParseInt" s NumErrKind.syn))
  else
    let neg : Bool := s.data.head? = some '-'
    let body : List Char :=
      if s.data.head? = some '+' ∨ s.data.head? = some '-' then s.data.tail else s.data
    match ParseUint body base bitSize with
    | (_, some (Error.numError _ _ NumErrKind.syn)) =>
      (0, some (Error.numError "ParseInt" s NumErrKind.syn))
    | (un, _) =>
      let cutoff : Nat := 2 ^ (bitSize - 1)
      if ¬ neg ∧ un ≥ cutoff then
        ((cutoff : Int) - 1, some (Error.numError "ParseInt" s NumErrKind.range))
      else if neg ∧ un > cutoff then
        (-(cutoff : Int), some (Error.numError "ParseInt" s NumErrKind.range))
      else if neg then (-(un : Int), none) else ((un : Int), none)

/-! ## Floating point -/

/-- The number a finite datum stands for; `0` for a NaN or an infinity. -/
def F64.toRat : F64 → ℚ
  | F64.fin neg mant exp => (if neg then -1 else 1) * (mant : ℚ) * (2 : ℚ) ^ exp
  | _ => 0

/-- The bit count of `m` by repeated halving, `fuel` bounding the steps. -/
def bitLenFuel : Nat → Nat → Nat
  | 0, _ => 0
  | fuel + 1, m => if m = 0 then 0 else bitLenFuel fuel (m / 2) + 1

/-- The number of bits of `m`: `0` for `0`, else `⌊log₂ m⌋ + 1`. -/
def bitLen (m : Nat) : Nat := bitLenFuel m m

/-- The integer nearest to `m * 2^e`, a tie going to the even neighbour. -/
def roundHalfEven (m : Nat) (e : Int) : Nat :=
  if 0 ≤ e then m * 2 ^ e.toNat
  else
    let q := m / 2 ^ (-e).toNat
    let r := m % 2 ^ (-e).toNat
    if 2 * r > 2 ^ (-e).toNat ∨ (2 * r = 2 ^ (-e).toNat ∧ q % 2 = 1) then q + 1 else q

/-- Go's conversion `float32(val)`, IEEE-754 round-to-nearest-even onto 24 significant
bits with least exponent `-149`; the result is written as the `float64` of the same
value.  A result of magnitude `2^128` or more is an infinity. -/
def toFloat32 : F64 → F64
  | F64.nan => F64.nan
  | F64.inf neg => F64.inf neg
  | F64.fin neg mant exp =>
    if mant = 0 then F64.fin neg 0 0
    else
      let q : Int := max (exp + (bitLen mant : Int) - 1 - 23) (-149)
      let m := roundHalfEven mant (exp - q)
      if 0 ≤ q ∧ m * 2 ^ q.toNat ≥ 2 ^ 128 then F64.inf neg else F64.fin neg m q

/-- Go's `strconv.FormatFloat(val, 'f', 0, 32)`: `val` is converted to `float32`, whose
exact decimal expansion is rounded to no fractional digit, half to even; the sign bit
gives a leading `-`. -/
def FormatFloatF0 (val : F64) : String :=
  match toFloat32 val with
  | F64.nan => "NaN"
  | F64.inf neg => if neg then "-Inf" else "+Inf"
  | F64.fin neg mant exp => (if neg then "-" else "") ++ Nat.repr (roundHalfEven mant exp)

/-- The integer part of `mant * 2^exp`. -/
def truncMag (mant : Nat) (exp : Int) : Nat :=
  if 0 ≤ exp then mant * 2 ^ exp.toNat else mant / 2 ^ (-exp).toNat

/-- Go's conversion `int64(v)` of a `float64`: the fraction is discarded (truncation
toward zero).  Where the result does not fit an `int64` the Go specification leaves
the value to the implementation; this is amd64's, the least `int64`. -/
def toInt64 : F64 → Int
  | F64.fin neg mant exp =>
    let t : Int := if neg then -(truncMag mant exp : Int) else (truncMag mant exp : Int)
    if -(2 : Int) ^ 63 ≤ t ∧ t < (2 : Int) ^ 63 then t else -(2 : Int) ^ 63
  | _ => -(2 : Int) ^ 63

/-! ## Package time -/

/-- Go's `time.Time` as an instant with a zone: `sec` counts the seconds since
January 1, year 1, 00:00:00 UTC (the origin of Go's own representation, in which
`Time{}` is zero), `nsec` the nanoseconds within the second, `offset` the seconds
east of UTC of the Time's Location. -/
structure Time where
  sec : Int
  nsec : Int
  offset : Int
deriving DecidableEq

/-- Go's zero `Time{}`: January 1, year 1, 00:00:00 UTC. -/
def zeroTime : Time := ⟨0, 0, 0⟩

/-- Method `Equal` of `time.Time`: the same instant, whatever the zones. -/
def Time.Equal (t u : Time) : Bool := t.sec = u.sec ∧ t.nsec = u.nsec

/-- The layout constant `time.RFC3339`. -/
def RFC3339 : String := "2006-01-02T15:04:05Z07:00"

/-- Go's `isLeap(year)`. -/
def isLeap (year : Int) : Bool := year % 4 = 0 ∧ (year % 100 ≠ 0 ∨ year % 400 = 0)

/-- The table `daysBefore` of package time: days of a non-leap year before month `m + 1`. -/
def daysBefore (m : Nat) : Int :=
  [0, 31, 59, 90, 120, 151, 181, 212, 243, 273, 304, 334, 365].getD m 0

/-- Go's `daysIn(month, year)`. -/
def daysIn (month : Nat) (year : Int) : Int :=
  if month = 2 ∧ isLeap year then 29 else daysBefore month - daysBefore (month - 1)

/-- The first half of Go's `absDate(abs, full)`, on a count of days since January 1,
year 1: the year and the day within the year (from 0), by cycles of 400, 100, 4 and 1
years.  Go counts from the year -292277022399, which is 1 modulo 400, so that its unsigned
divisions are the floor divisions here. -/
def absYearDay (days : Int) : Int × Int :=
  let n400 := days / 146097
  let d1 := days - 146097 * n400
  let n100 := d1 / 36524 - d1 / 36524 / 4
  let d2 := d1 - 36524 * n100
  let n4 := d2 / 1461
  let d3 := d2 - 1461 * n4
  let n1 := d3 / 365 - d3 / 365 / 4
  (400 * n400 + 100 * n100 + 4 * n4 + n1 + 1, d3 - 365 * n1)

/-- The end of Go's `absDate`: month and day of the month from the day within a year
whose February 29, if any, has been taken out. -/
def absMonthDay (day : Int) : Nat × Int :=
  let month := (day / 31).toNat
  if day ≥ daysBefore (month + 1) then (month + 2, day - daysBefore (month + 1) + 1)
  else (month + 1, day - daysBefore month + 1)

/-- Go's `absDate(abs, true)` on a count of days since January 1, year 1: the year,
month and day of the month. -/
def absDate (days : Int) : Int × Nat × Int :=
  let year := (absYearDay days).1
  let yday := (absYearDay days).2
  if isLeap year ∧ yday = 31 + 29 - 1 then (year, 2, 29)
  else (year, absMonthDay (if isLeap year ∧ yday > 31 + 29 - 1 then yday - 1 else yday))

/-- Go's `daysSinceEpoch(year)`, counted from January 1, year 1. -/
def daysSinceEpoch (year : Int) : Int :=
  let y := year - 1
  let n400 := y / 400
  let y1 := y - 400 * n400
  let n100 := y1 / 100
  let y2 := y1 - 100 * n100
  let n4 := y2 / 4
  let y3 := y2 - 4 * n4
  146097 * n400 + 36524 * n100 + 1461 * n4 + 365 * y3

/-- Go's `norm(hi, lo, base)`. -/
def norm (hi lo base : Int) : Int × Int :=
  (hi + lo / base, lo % base)

/-- Go's `time.Date(year, month, day, hour, min, sec, nsec, UTC)`. -/
def Date (year : Int) (month : Int) (day hour min sec nsec : Int) : Time :=
  let ym := norm year (month - 1) 12
  let sn := norm sec nsec 1000000000
  let ms := norm min sn.1 60
  let hm := norm hour ms.1 60
  let dh := norm day hm.1 24
  let d := daysSinceEpoch ym.1 + daysBefore ym.2.toNat
    + (if isLeap ym.1 ∧ ym.2 + 1 ≥ 3 then 1 else 0) + (dh.1 - 1)
  ⟨d * 86400 + (dh.2 * 3600 + hm.2 * 60 + ms.2), sn.2, 0⟩

/-- The byte of the decimal digit `d`. -/
def digitChar (d : Nat) : Char := Char.ofNat (48 + d)

/-- Go's `appendInt(b, x, width)` of package time, as the bytes appended. -/
def appendInt (x : Int) (width : Nat) : List Char :=
  (if x < 0 then ['-'] else []) ++
    (if width = 2 ∧ x.natAbs < 100 then [digitChar (x.natAbs / 10), digitChar (x.natAbs % 10)]
     else if width = 4 ∧ x.natAbs < 10000 then
       [digitChar (x.natAbs / 1000), digitChar (x.natAbs / 100 % 10),
        digitChar (x.natAbs / 10 % 10), digitChar (x.natAbs % 10)]
     else List.replicate (width - (Nat.toDigits 10 x.natAbs).length) '0'
       ++ Nat.toDigits 10 x.natAbs)

/-- The zone element `Z07:00` of `Format`: `Z` for offset zero, else the sign and
the offset in hours and minutes (Go's `/` on `int` truncates toward zero). -/
def formatZone (offset : Int) : List Char :=
  if offset = 0 then ['Z']
  else
    let zone := Int.tdiv offset 60
    let az := if zone < 0 then -zone else zone
    (if zone < 0 then ['-'] else ['+']) ++ appendInt (az / 60) 2 ++ [':'] ++ appendInt (az % 60) 2

/-- Go's `t.Format(time.RFC3339)`. -/
def Time.FormatRFC3339 (t : Time) : String :=
  let abs := t.sec + t.offset
  let date := absDate (abs / 86400)
  let secs := abs % 86400
  String.mk (appendInt date.1 4 ++ ['-'] ++ appendInt date.2.1 2 ++ ['-'] ++ appendInt date.2.2 2
    ++ ['T'] ++ appendInt (secs / 3600) 2 ++ [':'] ++ appendInt (secs % 3600 / 60) 2
    ++ [':'] ++ appendInt (secs % 60) 2 ++ formatZone t.offset)

/-- Go's `isDigit(s, i)` at one byte. -/
def isDigitChar (c : Char) : Bool := 48 ≤ c.toNat ∧ c.toNat ≤ 57

/-- The value `c - '0'` of a digit byte. -/
def digitOf (c : Char) : Int := (c.toNat : Int) - 48

/-- Go's `getnum(s, fixed)`: one or two leading digits (two when `fixed`), and the rest. -/
def getnum : List Char → Bool → Option (Int × List Char)
  | [], _ => none
  | [c0], isFixed =>
    if isDigitChar c0 then (if isFixed then none else some (digitOf c0, [])) else none
  | c0 :: c1 :: rest, isFixed =>
    if isDigitChar c0 then
      if isDigitChar c1 then some (digitOf c0 * 10 + digitOf c1, rest)
      else if isFixed then none else some (digitOf c0, c1 :: rest)
    else none

/-- Go's `skip(value, lit)` for a one-byte literal other than a space. -/
def skipByte (lit : Char) : List Char → Option (List Char)
  | [] => none
  | c :: rest => if c = lit then some rest else none

/-- The layout element `2006`: exactly four digits. -/
def parseYear : List Char → Option (Int × List Char)
  | c0 :: c1 :: c2 :: c3 :: rest =>
    if isDigitChar c0 ∧ isDigitChar c1 ∧ isDigitChar c2 ∧ isDigitChar c3 then
      some (((digitOf c0 * 10 + digitOf c1) * 10 + digitOf c2) * 10 + digitOf c3, rest)
    else none
  | _ => none

/-- The value of a run of digits, most significant first (Go's `atoi` on digits). -/
def atoiDigits (ds : List Char) : Int :=
  ds.foldl (fun n c => n * 10 + digitOf c) 0

/-- The fractional second that may follow the seconds although the layout has none:
a comma or period and digits, of which `parseNanoseconds` reads at most nine. -/
def parseFraction : List Char → Int × List Char
  | c0 :: c1 :: rest =>
    if (c0 = '.' ∨ c0 = ',') ∧ isDigitChar c1 then
      let digits := (c1 :: rest).takeWhile isDigitChar
      let used := digits.take 9
      (atoiDigits used * 10 ^ (9 - used.length), (c1 :: rest).drop digits.length)
    else (0, c0 :: c1 :: rest)
  | value => (0, value)

/-- The layout element `Z07:00`: `Z`, or a sign, two digits, a colon and two digits;
the offset in seconds east of UTC, and the rest. -/
def parseZone : List Char → Option (Int × List Char)
  | [] => none
  | 'Z' :: rest => some (0, rest)
  | sign :: h0 :: h1 :: colon :: m0 :: m1 :: rest =>
    if colon ≠ ':' then none
    else
      match getnum [h0, h1] true, getnum [m0, m1] true with
      | some (hr, _), some (mm, _) =>
        if hr > 24 ∨ mm > 60 then none
        else if sign = '+' then some ((hr * 60 + mm) * 60, rest)
        else if sign = '-' then some (-((hr * 60 + mm) * 60), rest)
        else none
      | _, _ => none
  | _ => none

/-- The fields `time.Parse` reads under the layout `time.RFC3339`, and the Time it
builds from them; `none` where Go returns a `*ParseError`. -/
def parseFields (value : List Char) : Option Time :=
  match parseYear value with
  | none => none
  | some (year, v1) =>
  match skipByte '-' v1 with
  | none => none
  | some v2 =>
  match getnum v2 true with
  | none => none
  | some (month, v3) =>
  if month ≤ 0 ∨ 12 < month then none else
  match skipByte '-' v3 with
  | none => none
  | some v4 =>
  match getnum v4 true with
  | none => none
  | some (day, v5) =>
  match skipByte 'T' v5 with
  | none => none
  | some v6 =>
  match getnum v6 false with
  | none => none
  | some (hour, v7) =>
  if hour < 0 ∨ 24 ≤ hour then none else
  match skipByte ':' v7 with
  | none => none
  | some v8 =>
  match getnum v8 true with
  | none => none
  | some (min, v9) =>
  if min < 0 ∨ 60 ≤ min then none else
  match skipByte ':' v9 with
  | none => none
  | some v10 =>
  match getnum v10 true with
  | none => none
  | some (sec, v11) =>
  if sec < 0 ∨ 60 ≤ sec then none else
  match parseZone (parseFraction v11).2 with
  | none => none
  | some (zoneOffset, v12) =>
  if v12 ≠ [] then none
  else if day < 1 ∨ day > daysIn month.toNat year then none
  else
    let t := Date year month day hour min sec (parseFraction v11).1
    some ⟨t.sec - zoneOffset, t.nsec, zoneOffset⟩

/-- Go's `time.Parse(time.RFC3339, value)`.  Every failure returns `Time{}` with a
`*ParseError` (of which the layout and the value are kept). -/
def ParseRFC3339 (value : String) : Time × Option Error :=
  match parseFields value.data with
  | none => (zeroTime, some (Error.parseError RFC3339 value))
  | some t => (t, none)

/-! ## Typed extraction -/

/-- Method `DataValueString` of `*Item`. -/
def DataValueString (item : Item) (name : String) : String × Option Error :=
  match DataValue item name with
  | (_, some err) => ("", some err)
  | (Dynamic.str v, none) => (v, none)
  | (Dynamic.bool v, none) => (FormatBool v, none)
  | (Dynamic.float v, none) => (FormatFloatF0 v, none)
  | (Dynamic.null, none) => ("", none)
  | (_, none) =>
    ("", some (Error.text ("Unable to covert Data Element " ++ name ++ " to a string.")))

/-- Method `DataValueInt` of `*Item`. -/
def DataValueInt (item : Item) (name : String) : Int × Option Error :=
  match DataValue item name with
  | (_, some err) => (0, some err)
  | (Dynamic.str v, none) => ParseInt v 10 32
  | (Dynamic.float v, none) => (toInt64 v, none)
  | (_, none) => (0, some (Error.text "Unable to convert the value into an int."))

/-- Method `DataValueTime` of `*Item`; `now` is what `time.Now()` reads during the call. -/
def DataValueTime (now : Time) (item : Item) (name : String) : Time × Option Error :=
  match DataValue item name with
  | (_, some err) => (now, some err)
  | (Dynamic.str v, none) => ParseRFC3339 v
  | (_, none) => (now, some (Error.text "Unable to convert the value into a time."))

/-! ## Client -/

/-- Collection of URLs that the API supports. -/
structure Collection where
  Version : String
  Href : String
  Rel : String
  Links : List Link
  Items : List Item

/-- Response is the response provided from the root API Query. -/
structure Response where
  Collection : Collection

/-- The constant `rootURL`. -/
def rootURL : String := "https://api.teamsnap.com/v3/"

/-- An `*http.Request` as far as `query` touches it: the method, the URL and the header
lines added to it. -/
structure Request where
  Method : String
  URL : String
  Header : List (String × String)

/-- What `query` calls outside this package: `http.NewRequest`, `(*http.Client).Do`
(yielding the response body), `ioutil.ReadAll` on that body, and `json.Unmarshal` of the
bytes into a `Response`.  Each either fails with an error or yields its result; the errors
of these packages are carried as `Error` values. -/
structure Http where
  NewRequest : String → String → Except Error Request
  Do : Request → Except Error String
  ReadAll : String → Except Error String
  Unmarshal : String → Except Error Response

/-- A result together with the addresses on which `query` was called while it was
computed, in call order. -/
structure Traced (α : Type) where
  result : α
  calls : List String

/-- How a call ends: it returns, or it panics (a nil pointer is dereferenced). -/
inductive Outcome (α : Type) where
  | returns (value : α)
  | panics

/-- Method `query` of `*TeamSnap`: a GET on `href` with the two headers, the body read and
decoded; the first step that fails gives `nil` and its error.  (The `fmt.Println` of a
decoding error is output only.) -/
def query (http : Http) (teamSnap : TeamSnap) (href : String) :
    Traced (Option Response × Option Error) :=
  ⟨match http.NewRequest "GET" href with
    | Except.error err => (none, some err)
    | Except.ok req =>
      match http.Do { req with
          Header := req.Header ++ [("Content-Type", "application/json"),
            ("Authorization", "Bearer " ++ teamSnap.AuthToken)] } with
      | Except.error err => (none, some err)
      | Except.ok respBody =>
        match http.ReadAll respBody with
        | Except.error err => (none, some err)
        | Except.ok body =>
          match http.Unmarshal body with
          | Except.error err => (none, some err)
          | Except.ok response => (some response, none),
   [href]⟩

/-- Method `Initialize` of `*TeamSnap`: the client after the call and the error returned.
Reading `result.Collection` through a nil `result` would panic. -/
def Initialize (http : Http) (teamSnap : TeamSnap) : Traced (Outcome (TeamSnap × Option Error)) :=
  match query http teamSnap rootURL with
  | ⟨(_, some err), calls⟩ => ⟨Outcome.returns (teamSnap, some err), calls⟩
  | ⟨(some result, none), calls⟩ =>
    ⟨Outcome.returns
      ({ teamSnap with Version := result.Collection.Version,
                       RootLinks := result.Collection.Links }, none), calls⟩
  | ⟨(none, none), calls⟩ => ⟨Outcome.panics, calls⟩

/-- Method `Fetch` of `*TeamSnap`. -/
def Fetch (http : Http) (teamSnap : TeamSnap) (rel : String) (links : List Link) :
    Traced (Option Response × Option Error) :=
  match findHref teamSnap rel links with
  | (_, some err) => ⟨(none, some err), []⟩
  | (href, none) =>
    match query http teamSnap href with
    | ⟨(_, some err), calls⟩ => ⟨(none, some err), calls⟩
    | ⟨(result, none), calls⟩ => ⟨(result, none), calls⟩

/-- Method `FetchRoot` of `*TeamSnap`. -/
def FetchRoot (http : Http) (teamSnap : TeamSnap) (rel : String) :
    Traced (Option Response × Option Error) :=
  Fetch http teamSnap rel teamSnap.RootLinks

/-- A transport for worked examples: every request is accepted, the body of a response is
named by the URL asked, and decoding gives a collection of version `3.867.0` whose links
are `me` and `teams`; only the address `https://down.example/` cannot be reached. -/
def exampleHttp : Http where
  NewRequest := fun method url => Except.ok ⟨method, url, []⟩
  Do := fun req =>
    if req.URL = "https://down.example/" then Except.error (Error.text "dial tcp: no route to host")
    else Except.ok req.URL
  ReadAll := fun body => Except.ok body
  Unmarshal := fun body =>
    Except.ok ⟨⟨"3.867.0", body, "root",
      [⟨"me", "https://api.teamsnap.com/v3/me"⟩, ⟨"teams", "https://api.teamsnap.com/v3/teams"⟩],
      []⟩⟩

/-- A transport that reaches nothing: every exchange fails. -/
def offlineHttp : Http where
  NewRequest := fun method url => Except.ok ⟨method, url, []⟩
  Do := fun _ => Except.error (Error.text "dial tcp: network is unreachable")
  ReadAll := fun body => Except.ok body
  Unmarshal := fun _ => Except.error (Error.text "unexpected end of JSON input")

/-! ## Vocabulary of the specification -/

/-- The first entry of `item.Data` (in list order) whose name is `name` has the value `v`. -/
def FirstValue (item : Item) (name : String) (v : Dynamic) : Prop :=
  ∃ (front : List Data) (d : Data) (back : List Data),
    item.Data = front ++ d :: back ∧ (∀ x ∈ front, x.Name ≠ name) ∧ d.Name = name ∧ d.Value = v

/-- The first link of `links` (in list order) whose relation is `rel` is `link`. -/
def FirstLink (links : List Link) (rel : String) (link : Link) : Prop :=
  ∃ (front back : List Link),
    links = front ++ link :: back ∧ (∀ x ∈ front, x.Rel ≠ rel) ∧ link.Rel = rel

/-- The sign and the digits of a literal: a leading `+` or `-` is split off. -/
def splitSign : List Char → Bool × List Char
  | '+' :: ds => (false, ds)
  | '-' :: ds => (true, ds)
  | ds => (false, ds)

/-- The number a run of decimal digits denotes. -/
def decValue (ds : List Char) : Nat :=
  ds.foldl (fun n c => n * 10 + (c.toNat - 48)) 0

/-- A base-10 integer literal: an optional sign, then one or more digits `0` to `9`. -/
def isIntLiteral (s : String) : Bool :=
  (splitSign s.data).2 ≠ [] ∧ (splitSign s.data).2.all isDigitChar

/-- The integer a base-10 literal denotes. -/
def literalValue (s : String) : Int :=
  if (splitSign s.data).1 then -(decValue (splitSign s.data).2 : Int)
  else (decValue (splitSign s.data).2 : Int)

/-- The rational `x` with its fraction discarded: rounded toward zero. -/
def truncRat (x : ℚ) : Int :=
  if 0 ≤ x then ⌊x⌋ else ⌈x⌉

/-- Go's `t.Year()`: the calendar year of `t` in its own zone. -/
def Time.Year (t : Time) : Int :=
  (absDate ((t.sec + t.offset) / 86400)).1

/-! ## Theorems -/

/-! ### Lookup loops -/

theorem findHrefLoop_of_first (rel : String) (front : List Link) (link : Link) (back : List Link)
    (hfront : ∀ x ∈ front, x.Rel ≠ rel) (hrel : link.Rel = rel) :
    findHrefLoop rel (front ++ link :: back) = (link.Href, none) := by
  induction front with
  | nil => simp [findHrefLoop, hrel]
  | cons x xs ih =>
    have hx : x.Rel ≠ rel := hfront x (List.mem_cons_self x xs)
    have hxs : ∀ y ∈ xs, y.Rel ≠ rel := fun y hy => hfront y (List.mem_cons_of_mem x hy)
    simp [findHrefLoop, hx, ih hxs]

theorem findHrefLoop_error_iff (rel : String) (links : List Link) :
    (findHrefLoop rel links).2 ≠ none ↔ ∀ l ∈ links, l.Rel ≠ rel := by
  induction links with
  | nil => simp [findHrefLoop]
  | cons x xs ih =>
    by_cases hx : x.Rel = rel
    · simp [findHrefLoop, hx]
    · simp only [findHrefLoop, hx, if_false, List.mem_cons, forall_eq_or_imp]
      constructor
      · intro h
        exact ⟨hx, ih.mp h⟩
      · intro h
        exact ih.mpr h.2

theorem dataValueLoop_of_first (name : String) (front : List Data) (d : Data) (back : List Data)
    (hfront : ∀ x ∈ front, x.Name ≠ name) (hname : d.Name = name) :
    dataValueLoop name (front ++ d :: back) = (d.Value, none) := by
  induction front with
  | nil => simp [dataValueLoop, hname]
  | cons x xs ih =>
    have hx : x.Name ≠ name := hfront x (List.mem_cons_self x xs)
    have hxs : ∀ y ∈ xs, y.Name ≠ name := fun y hy => hfront y (List.mem_cons_of_mem x hy)
    simp [dataValueLoop, hx, ih hxs]

theorem dataValueLoop_absent (name : String) (entries : List Data)
    (h : ∀ d ∈ entries, d.Name ≠ name) :
    dataValueLoop name entries = (Dynamic.str "", some (Error.text "No match found")) := by
  induction entries with
  | nil => rfl
  | cons x xs ih =>
    have hx : x.Name ≠ name := h x (List.mem_cons_self x xs)
    have hxs : ∀ y ∈ xs, y.Name ≠ name := fun y hy => h y (List.mem_cons_of_mem x hy)
    simp [dataValueLoop, hx, ih hxs]

theorem dataValueLoop_error_iff (name : String) (entries : List Data) :
    (dataValueLoop name entries).2 = some (Error.text "No match found")
      ↔ ∀ d ∈ entries, d.Name ≠ name := by
  induction entries with
  | nil => simp [dataValueLoop]
  | cons x xs ih =>
    by_cases hx : x.Name = name
    · simp [dataValueLoop, hx]
    · simp only [dataValueLoop, hx, if_false, List.mem_cons, forall_eq_or_imp]
      constructor
      · intro h
        exact ⟨hx, ih.mp h⟩
      · intro h
        exact ih.mpr h.2

theorem dataValueLoop_error_cases (name : String) (entries : List Data) :
    (dataValueLoop name entries).2 = none
      ∨ (dataValueLoop name entries).2 = some (Error.text "No match found") := by
  induction entries with
  | nil => simp [dataValueLoop]
  | cons x xs ih =>
    by_cases hx : x.Name = name
    · simp [dataValueLoop, hx]
    · simpa [dataValueLoop, hx] using ih

theorem dataValue_of_firstValue (item : Item) (name : String) (v : Dynamic)
    (h : FirstValue item name v) : DataValue item name = (v, none) := by
  obtain ⟨front, d, back, hsplit, hfront, hname, hval⟩ := h
  rw [DataValue, hsplit, dataValueLoop_of_first name front d back hfront hname, hval]

/-! ### Link resolution -/

/-- C1: `findHref(r, L)` returns, without error, the Href of the first link of `L` whose
Rel is exactly `r`, and it returns an error if and only if no link of `L` has Rel `r`. -/
theorem findHref_first_match (teamSnap : TeamSnap) (rel : String) (links : List Link) :
    (∀ link : Link, FirstLink links rel link →
        findHref teamSnap rel links = (link.Href, none)) ∧
    ((findHref teamSnap rel links).2 ≠ none ↔ ∀ l ∈ links, l.Rel ≠ rel) := by
  refine ⟨?_, findHrefLoop_error_iff rel links⟩
  rintro link ⟨front, back, hsplit, hfront, hrel⟩
  rw [findHref, hsplit]
  exact findHrefLoop_of_first rel front link back hfront hrel

/-- C1, the scenario of the specification: the link set with the one link `me` resolves
`me` to its address and fails for `other`. -/
theorem findHref_first_match_witness :
    findHref ⟨"", "", []⟩ "me" [⟨"me", "https://api.example.com/me"⟩]
        = ("https://api.example.com/me", none) ∧
    (findHref ⟨"", "", []⟩ "other" [⟨"me", "https://api.example.com/me"⟩]).2 ≠ none :=
  ⟨(findHref_first_match ⟨"", "", []⟩ "me" [⟨"me", "https://api.example.com/me"⟩]).1
      ⟨"me", "https://api.example.com/me"⟩ ⟨[], [], rfl, by simp, rfl⟩,
   (findHref_first_match ⟨"", "", []⟩ "other" [⟨"me", "https://api.example.com/me"⟩]).2.mpr
      (by decide)⟩

/-! ### Field lookup -/

/-- C2: `DataValue(n)` returns, without error, the Value of the first entry of `I.Data`
named `n`, whatever follows it; it fails with the error "No match found" if and only if
no entry is named `n`, and it fails in no other way. -/
theorem dataValue_first_match (item : Item) (name : String) :
    (∀ v : Dynamic, FirstValue item name v → DataValue item name = (v, none)) ∧
    ((DataValue item name).2 = some (Error.text "No match found")
      ↔ ∀ d ∈ item.Data, d.Name ≠ name) ∧
    ((DataValue item name).2 ≠ none
      ↔ (DataValue item name).2 = some (Error.text "No match found")) := by
  refine ⟨fun v h => dataValue_of_firstValue item name v h,
    dataValueLoop_error_iff name item.Data, ?_⟩
  rcases dataValueLoop_error_cases name item.Data with h | h
  · simp [DataValue, h]
  · simp [DataValue, h]

/-- C2, a duplicated name: the first of two entries named `a` wins, and a name that is
absent gives "No match found". -/
theorem dataValue_first_match_witness :
    DataValue ⟨"", [⟨"a", Dynamic.str "x"⟩, ⟨"a", Dynamic.str "y"⟩], []⟩ "a"
        = (Dynamic.str "x", none) ∧
    (DataValue ⟨"", [⟨"a", Dynamic.str "x"⟩, ⟨"a", Dynamic.str "y"⟩], []⟩ "b").2
        = some (Error.text "No match found") :=
  ⟨(dataValue_first_match ⟨"", [⟨"a", Dynamic.str "x"⟩, ⟨"a", Dynamic.str "y"⟩], []⟩ "a").1
      (Dynamic.str "x") ⟨[], ⟨"a", Dynamic.str "x"⟩, [⟨"a", Dynamic.str "y"⟩], rfl, by simp, rfl, rfl⟩,
   (dataValue_first_match ⟨"", [⟨"a", Dynamic.str "x"⟩, ⟨"a", Dynamic.str "y"⟩], []⟩ "b").2.1.mpr
      (by decide)⟩

/-! ### Strings and booleans -/

/-- C3: where the first value named `n` is a string `s`, `DataValueString(n)` returns
exactly `s` and no error. -/
theorem dataValueString_string (item : Item) (name : String) (s : String)
    (h : FirstValue item name (Dynamic.str s)) : DataValueString item name = (s, none) := by
  simp [DataValueString, dataValue_of_firstValue item name _ h]

/-- C3, the scenario of the specification: the data `email = "a@b.com"`. -/
theorem dataValueString_string_witness :
    DataValueString ⟨"", [⟨"email", Dynamic.str "a@b.com"⟩], []⟩ "email" = ("a@b.com", none) :=
  dataValueString_string ⟨"", [⟨"email", Dynamic.str "a@b.com"⟩], []⟩ "email" "a@b.com"
    ⟨[], ⟨"email", Dynamic.str "a@b.com"⟩, [], rfl, by simp, rfl, rfl⟩

/-- C10: where the first value named `n` is a boolean `v`, `DataValueString(n)` returns no
error, the text "true" if and only if `v` is true, and the text "false" if and only if
`v` is false. -/
theorem dataValueString_bool (item : Item) (name : String) (v : Bool)
    (h : FirstValue item name (Dynamic.bool v)) :
    (DataValueString item name).2 = none ∧
    ((DataValueString item name).1 = "true" ↔ v = true) ∧
    ((DataValueString item name).1 = "false" ↔ v = false) := by
  have hv : DataValueString item name = (FormatBool v, none) := by
    simp [DataValueString, dataValue_of_firstValue item name _ h]
  rw [hv]
  cases v <;> simp [FormatBool]

/-- C10 on the data `admin = true`. -/
theorem dataValueString_bool_witness :
    (DataValueString ⟨"", [⟨"admin", Dynamic.bool true⟩], []⟩ "admin").2 = none ∧
    ((DataValueString ⟨"", [⟨"admin", Dynamic.bool true⟩], []⟩ "admin").1 = "true"
      ↔ true = true) ∧
    ((DataValueString ⟨"", [⟨"admin", Dynamic.bool true⟩], []⟩ "admin").1 = "false"
      ↔ true = false) :=
  dataValueString_bool ⟨"", [⟨"admin", Dynamic.bool true⟩], []⟩ "admin" true
    ⟨[], ⟨"admin", Dynamic.bool true⟩, [], rfl, by simp, rfl, rfl⟩

/-! ### Integers -/

theorem digitVal_of_isDigitChar (c : Char) (h : isDigitChar c = true) :
    digitVal c = some (c.toNat - 48) := by
  simp only [isDigitChar, decide_eq_true_eq] at h
  simp [digitVal, h]

theorem le_foldl_dec (ds : List Char) (n : Nat) :
    n ≤ ds.foldl (fun n c => n * 10 + (c.toNat - 48)) n := by
  induction ds generalizing n with
  | nil => simp
  | cons c cs ih =>
    simp only [List.foldl_cons]
    exact le_trans (by omega) (ih (n * 10 + (c.toNat - 48)))

theorem parseUintLoop_digits (s0 : String) (ds : List Char) (n : Nat)
    (hds : ∀ c ∈ ds, isDigitChar c = true)
    (hle : ds.foldl (fun n c => n * 10 + (c.toNat - 48)) n ≤ 4294967295) :
    parseUintLoop s0 10 32 ds n
      = (ds.foldl (fun n c => n * 10 + (c.toNat - 48)) n, none) := by
  induction ds generalizing n with
  | nil => simp [parseUintLoop]
  | cons c cs ih =>
    have hc : isDigitChar c = true := hds c (List.mem_cons_self c cs)
    have hcs : ∀ x ∈ cs, isDigitChar x = true := fun x hx => hds x (List.mem_cons_of_mem c hx)
    simp only [List.foldl_cons] at hle ⊢
    have hmono := le_foldl_dec cs (n * 10 + (c.toNat - 48))
    have hd : c.toNat - 48 < 10 := by
      simp only [isDigitChar, decide_eq_true_eq] at hc
      omega
    have hn1 : n * 10 + (c.toNat - 48) ≤ 4294967295 := le_trans hmono hle
    have h1 : (n * 10) % 2 ^ 64 = n * 10 := Nat.mod_eq_of_lt (by omega)
    have h2 : (n * 10 + (c.toNat - 48)) % 2 ^ 64 = n * 10 + (c.toNat - 48) :=
      Nat.mod_eq_of_lt (by omega)
    have h3 : ¬ (10 ≤ c.toNat - 48) := by omega
    have h4 : ¬ (maxUint64 / 10 + 1 ≤ n) := by
      simp only [maxUint64]
      omega
    have h5 : ¬ (n * 10 + (c.toNat - 48) < n * 10 ∨ n * 10 + (c.toNat - 48) > 2 ^ 32 - 1) := by
      omega
    rw [parseUintLoop, digitVal_of_isDigitChar c hc]
    simp only [ge_iff_le, h3, h4, if_false, h1, h2, h5]
    exact ih (n * 10 + (c.toNat - 48)) hcs hle

theorem splitSign_plus (cs : List Char) : splitSign ('+' :: cs) = (false, cs) := rfl

theorem splitSign_minus (cs : List Char) : splitSign ('-' :: cs) = (true, cs) := rfl

theorem splitSign_other (c : Char) (cs : List Char) (hp : c ≠ '+') (hm : c ≠ '-') :
    splitSign (c :: cs) = (false, c :: cs) := by
  unfold splitSign
  split
  · rename_i heq
    simp only [List.cons.injEq] at heq
    exact absurd heq.1 hp
  · rename_i heq
    simp only [List.cons.injEq] at heq
    exact absurd heq.1 hm
  · rfl

theorem parseUint_digits (ds : List Char) (hne : ds ≠ [])
    (hds : ∀ c ∈ ds, isDigitChar c = true) (hle : decValue ds ≤ 4294967295) :
    ParseUint ds 10 32 = (decValue ds, none) := by
  rw [ParseUint, if_neg hne]
  exact parseUintLoop_digits _ ds 0 hds hle

theorem parseInt_literal (s : String) (hlit : isIntLiteral s = true)
    (hlo : -2147483648 ≤ literalValue s) (hhi : literalValue s ≤ 2147483647) :
    ParseInt s 10 32 = (literalValue s, none) := by
  rcases hs : s.data with _ | ⟨c, cs⟩
  · simp [isIntLiteral, hs, splitSign] at hlit
  · by_cases hp : c = '+'
    · subst hp
      simp only [isIntLiteral, literalValue, hs, splitSign_plus, decide_eq_true_eq,
        List.all_eq_true] at hlit hlo hhi
      simp only [Bool.false_eq_true, if_false] at hlo hhi
      have hu := parseUint_digits cs hlit.1 hlit.2 (by omega)
      simp [ParseInt, hs, hu, literalValue, splitSign_plus]
      omega
    · by_cases hm : c = '-'
      · subst hm
        simp only [isIntLiteral, literalValue, hs, splitSign_minus, decide_eq_true_eq,
          List.all_eq_true] at hlit hlo hhi
        simp only [if_true] at hlo hhi
        have hu := parseUint_digits cs hlit.1 hlit.2 (by omega)
        simp [ParseInt, hs, hu, literalValue, splitSign_minus]
        omega
      · simp only [isIntLiteral, literalValue, hs, splitSign_other c cs hp hm, decide_eq_true_eq,
          List.all_eq_true] at hlit hlo hhi
        simp only [Bool.false_eq_true, if_false] at hlo hhi
        have hu := parseUint_digits (c :: cs) hlit.1 hlit.2 (by omega)
        simp [ParseInt, hs, hu, literalValue, splitSign_other c cs hp hm, hp, hm]
        omega

/-- C5, as amended: where the first value named `n` is a string that is a base-10 integer
literal denoting a value of the signed 32-bit range, `DataValueInt(n)` returns that value
and no error. -/
theorem dataValueInt_literal (item : Item) (name : String) (s : String)
    (h : FirstValue item name (Dynamic.str s)) (hlit : isIntLiteral s = true)
    (hlo : -2147483648 ≤ literalValue s) (hhi : literalValue s ≤ 2147483647) :
    DataValueInt item name = (literalValue s, none) := by
  simp only [DataValueInt, dataValue_of_firstValue item name _ h]
  exact parseInt_literal s hlit hlo hhi

/-- C5 on the data `age = "-42"`. -/
theorem dataValueInt_literal_witness :
    DataValueInt ⟨"", [⟨"age", Dynamic.str "-42"⟩], []⟩ "age" = (-42, none) :=
  dataValueInt_literal ⟨"", [⟨"age", Dynamic.str "-42"⟩], []⟩ "age" "-42"
    ⟨[], ⟨"age", Dynamic.str "-42"⟩, [], rfl, by simp, rfl, rfl⟩
    (by decide) (by decide) (by decide)

/-- C5 as stated fails: "2147483648" is a base-10 integer literal, yet `DataValueInt`
returns a range error, with 2147483647 and not the 2147483648 the literal denotes. -/
theorem dataValueInt_literal_out_of_range :
    isIntLiteral "2147483648" = true ∧ literalValue "2147483648" = 2147483648 ∧
    DataValueInt ⟨"", [⟨"n", Dynamic.str "2147483648"⟩], []⟩ "n"
      = (2147483647, some (Error.numError "ParseInt" "2147483648" NumErrKind.range)) := by
  decide

theorem parseInt_cases (s : String) :
    (ParseInt s 10 32).2 = none
    ∨ ParseInt s 10 32 = (0, some (Error.numError "ParseInt" s NumErrKind.syn))
    ∨ ParseInt s 10 32 = (2147483647, some (Error.numError "ParseInt" s NumErrKind.range))
    ∨ ParseInt s 10 32 = (-2147483648, some (Error.numError "ParseInt" s NumErrKind.range)) := by
  unfold ParseInt
  by_cases hs : s.data = []
  · simp [hs]
  · simp only [hs, if_false]
    generalize ParseUint _ 10 32 = r
    generalize (decide (s.data.head? = some '-')) = neg
    rcases r with ⟨un, _ | e⟩
    · simp only
      split_ifs <;> simp
    · cases e with
      | text msg => simp only; split_ifs <;> simp
      | parseError l v => simp only; split_ifs <;> simp
      | numError fn num kind =>
        cases kind with
        | syn => simp
        | range => simp only; split_ifs <;> simp

/-- The integer `DataValueInt` returns with an error, path by path: 0 on the two paths
that build the error themselves and for a syntax error of `strconv.ParseInt`; only the
range error of `strconv.ParseInt`, passed on as it comes, brings the bound of the 32-bit
range. -/
theorem dataValueInt_error_cases (item : Item) (name : String) (e : Error)
    (herr : (DataValueInt item name).2 = some e) :
    ((∀ fn num, e ≠ Error.numError fn num NumErrKind.range) →
      (DataValueInt item name).1 = 0) ∧
    (∀ fn num, e = Error.numError fn num NumErrKind.range →
      (DataValueInt item name).1 = 2147483647 ∨ (DataValueInt item name).1 = -2147483648) := by
  unfold DataValueInt at herr ⊢
  rcases hdv : DataValue item name with ⟨v, err⟩
  rw [hdv] at herr
  cases err with
  | some e0 =>
    have hcases := dataValueLoop_error_cases name item.Data
    rw [← DataValue, hdv] at hcases
    simp only [reduceCtorEq, false_or, Option.some.injEq] at hcases
    subst hcases
    simp only [Option.some.injEq] at herr
    subst herr
    simp
  | none =>
    cases v with
    | str sv =>
      simp only at herr ⊢
      rcases parseInt_cases sv with h | h | h | h
      · rw [h] at herr
        exact absurd herr (by simp)
      · rw [h] at herr ⊢
        simp only [Option.some.injEq] at herr
        subst herr
        simp
      · rw [h] at herr ⊢
        simp only [Option.some.injEq] at herr
        subst herr
        simp
      · rw [h] at herr ⊢
        simp only [Option.some.injEq] at herr
        subst herr
        simp
    | float f => simp at herr
    | bool b =>
      simp only [Option.some.injEq] at herr
      subst herr
      simp
    | null =>
      simp only [Option.some.injEq] at herr
      subst herr
      simp
    | array a =>
      simp only [Option.some.injEq] at herr
      subst herr
      simp
    | object o =>
      simp only [Option.some.injEq] at herr
      subst herr
      simp

/-- The error paths on which `DataValueInt(n)` returns 0 with its error: an absent field,
a value of an unsupported type and a string rejected for its syntax, that is every error
but the range error of `strconv.ParseInt`. -/
theorem dataValueInt_error_value (item : Item) (name : String) (e : Error)
    (herr : (DataValueInt item name).2 = some e)
    (hkind : ∀ fn num, e ≠ Error.numError fn num NumErrKind.range) :
    (DataValueInt item name).1 = 0 :=
  (dataValueInt_error_cases item name e herr).1 hkind

/-- On the data `age = "12a"` a syntax error comes with the integer 0. -/
theorem dataValueInt_error_value_witness :
    (DataValueInt ⟨"", [⟨"age", Dynamic.str "12a"⟩], []⟩ "age").2
        = some (Error.numError "ParseInt" "12a" NumErrKind.syn) ∧
    (DataValueInt ⟨"", [⟨"age", Dynamic.str "12a"⟩], []⟩ "age").1 = 0 :=
  ⟨by decide,
   dataValueInt_error_value ⟨"", [⟨"age", Dynamic.str "12a"⟩], []⟩ "age"
      (Error.numError "ParseInt" "12a" NumErrKind.syn) (by decide) (by simp)⟩

/-- C6, the code at the failing input: for the string "-9999999999" `DataValueInt` returns
the range error of `strconv.ParseInt` and, with it, -2147483648, where the claim and the
two other error paths of the method give 0. -/
theorem dataValueInt_error_value_nonzero :
    DataValueInt ⟨"", [⟨"n", Dynamic.str "-9999999999"⟩], []⟩ "n"
      = (-2147483648, some (Error.numError "ParseInt" "-9999999999" NumErrKind.range)) := by
  decide

/-! ### Floating point -/

theorem zpow_two_of_nonneg (e : Int) (he : 0 ≤ e) : (2 : ℚ) ^ e = ((2 ^ e.toNat : Nat) : ℚ) := by
  obtain ⟨n, rfl⟩ := Int.eq_ofNat_of_zero_le he
  simp

theorem zpow_two_of_neg (e : Int) (he : ¬ 0 ≤ e) :
    (2 : ℚ) ^ e = (((2 ^ (-e).toNat : Nat) : ℚ))⁻¹ := by
  have h : ∃ n : Nat, e = -(n : Int) := ⟨(-e).toNat, by omega⟩
  obtain ⟨n, rfl⟩ := h
  simp [zpow_neg]

theorem roundHalfEven_near (m : Nat) (e : Int) :
    |(m : ℚ) * (2 : ℚ) ^ e - (roundHalfEven m e : ℚ)| ≤ 1 / 2 ∧
    (|(m : ℚ) * (2 : ℚ) ^ e - (roundHalfEven m e : ℚ)| = 1 / 2 → Even (roundHalfEven m e)) := by
  by_cases he : 0 ≤ e
  · have hval : (m : ℚ) * (2 : ℚ) ^ e - (roundHalfEven m e : ℚ) = 0 := by
      rw [zpow_two_of_nonneg e he]
      simp [roundHalfEven, he]
    rw [hval]
    norm_num
  · rw [zpow_two_of_neg e he]
    simp only [roundHalfEven, he, if_false]
    generalize hP : 2 ^ (-e).toNat = P
    have hk : 1 ≤ (-e).toNat := by omega
    have hPeven : ∃ H, P = 2 * H ∧ 0 < H := by
      refine ⟨2 ^ ((-e).toNat - 1), ?_, pow_pos (by norm_num) _⟩
      rw [← hP, ← pow_succ']
      congr 1
      omega
    obtain ⟨H, hPH, hH⟩ := hPeven
    have hPpos : (0 : ℚ) < (P : ℚ) := by
      have : 0 < P := by omega
      exact_mod_cast this
    have hdm := Nat.div_add_mod m P
    have hr : m % P < P := Nat.mod_lt _ (by omega)
    generalize m / P = q at hdm ⊢
    generalize m % P = r at hdm hr ⊢
    have hmq : (m : ℚ) = (P : ℚ) * q + r := by exact_mod_cast hdm.symm
    have hx : (m : ℚ) * ((P : ℚ))⁻¹ = q + (r : ℚ) / P := by
      rw [hmq]
      field_simp
      ring
    rw [hx]
    have hr0 : (0 : ℚ) ≤ (r : ℚ) / P := by positivity
    have hr1 : (r : ℚ) / P < 1 := by
      rw [div_lt_one hPpos]
      exact_mod_cast hr
    by_cases hc : 2 * r > P ∨ (2 * r = P ∧ q % 2 = 1)
    · simp only [hc, if_true]
      have hge : (P : ℚ) ≤ 2 * r := by
        have : P ≤ 2 * r := by omega
        exact_mod_cast this
      have hhalf : (1 : ℚ) / 2 ≤ (r : ℚ) / P := by
        rw [le_div_iff₀ hPpos]
        linarith
      have hval : (q : ℚ) + (r : ℚ) / P - ((q + 1 : Nat) : ℚ) = -(1 - (r : ℚ) / P) := by
        push_cast
        ring
      rw [hval, abs_neg, abs_of_nonneg (by linarith)]
      refine ⟨by linarith, ?_⟩
      intro htie
      have hrP : (r : ℚ) / P = 1 / 2 := by linarith
      rw [div_eq_iff (ne_of_gt hPpos)] at hrP
      have h2 : (2 : ℚ) * r = P := by linarith
      have h2n : 2 * r = P := by exact_mod_cast h2
      have hq : q % 2 = 1 := by omega
      exact ⟨(q + 1) / 2, by omega⟩
    · simp only [hc, if_false]
      have hle : 2 * (r : ℚ) ≤ P := by
        have : 2 * r ≤ P := by omega
        exact_mod_cast this
      have hhalf : (r : ℚ) / P ≤ 1 / 2 := by
        rw [div_le_iff₀ hPpos]
        linarith
      have hval : (q : ℚ) + (r : ℚ) / P - (q : ℚ) = (r : ℚ) / P := by ring
      rw [hval, abs_of_nonneg hr0]
      refine ⟨hhalf, ?_⟩
      intro htie
      rw [div_eq_iff (ne_of_gt hPpos)] at htie
      have h2 : (2 : ℚ) * r = P := by linarith
      have h2n : 2 * r = P := by exact_mod_cast h2
      have hq : ¬ q % 2 = 1 := fun h => hc (Or.inr ⟨h2n, h⟩)
      exact ⟨q / 2, by omega⟩

theorem truncMag_floor (m : Nat) (e : Int) :
    ⌊(m : ℚ) * (2 : ℚ) ^ e⌋ = (truncMag m e : Int) := by
  by_cases he : 0 ≤ e
  · rw [zpow_two_of_nonneg e he]
    simp only [truncMag, he, if_true]
    have : (m : ℚ) * ((2 ^ e.toNat : Nat) : ℚ) = (((m * 2 ^ e.toNat : Nat) : Int) : ℚ) := by
      push_cast
      ring
    rw [this, Int.floor_intCast]
  · rw [zpow_two_of_neg e he]
    simp only [truncMag, he, if_false]
    rw [← div_eq_mul_inv]
    exact_mod_cast Rat.floor_natCast_div_natCast m (2 ^ (-e).toNat)

theorem truncRat_fin (neg : Bool) (m : Nat) (e : Int) :
    truncRat (F64.toRat (F64.fin neg m e))
      = if neg then -(truncMag m e : Int) else (truncMag m e : Int) := by
  have hnn : (0 : ℚ) ≤ (m : ℚ) * (2 : ℚ) ^ e := by positivity
  cases neg with
  | false =>
    simp only [F64.toRat, Bool.false_eq_true, if_false, one_mul, truncRat, hnn, if_true]
    exact truncMag_floor m e
  | true =>
    simp only [F64.toRat, if_true, neg_mul, one_mul, truncRat]
    by_cases h0 : (m : ℚ) * (2 : ℚ) ^ e = 0
    · have hf := truncMag_floor m e
      rw [h0] at hf ⊢
      simp only [Int.floor_zero] at hf
      simp [← hf]
    · have hneg : ¬ (0 : ℚ) ≤ -((m : ℚ) * (2 : ℚ) ^ e) := by
        intro hle
        exact h0 (le_antisymm (by linarith) hnn)
      rw [if_neg hneg, Int.ceil_neg, truncMag_floor]

theorem abs_toRat_fin (neg : Bool) (m : Nat) (e : Int) :
    |F64.toRat (F64.fin neg m e)| = (m : ℚ) * (2 : ℚ) ^ e := by
  have hnn : (0 : ℚ) ≤ (m : ℚ) * (2 : ℚ) ^ e := by positivity
  cases neg with
  | false => simp only [F64.toRat, Bool.false_eq_true, if_false, one_mul, abs_of_nonneg hnn]
  | true => simp only [F64.toRat, if_true, neg_mul, one_mul, abs_neg, abs_of_nonneg hnn]

theorem lt_two_pow_bitLenFuel (fuel m : Nat) (h : m ≤ fuel) : m < 2 ^ bitLenFuel fuel m := by
  induction fuel generalizing m with
  | zero =>
    have hm : m = 0 := by omega
    simp [hm, bitLenFuel]
  | succ fuel ih =>
    by_cases hm : m = 0
    · simp [hm, bitLenFuel]
    · have hhalf := ih (m / 2) (by omega)
      simp only [bitLenFuel, hm, if_false, pow_succ]
      omega

theorem lt_two_pow_bitLen (m : Nat) : m < 2 ^ bitLen m :=
  lt_two_pow_bitLenFuel m m (le_refl m)

theorem roundHalfEven_le (m : Nat) (e : Int) (K : Nat) (h : (m : ℚ) * (2 : ℚ) ^ e ≤ (K : ℚ)) :
    roundHalfEven m e ≤ K := by
  have hnear := (roundHalfEven_near m e).1
  rw [abs_le] at hnear
  have hlt : (roundHalfEven m e : ℚ) < (K : ℚ) + 1 := by linarith [hnear.1]
  have : roundHalfEven m e < K + 1 := by exact_mod_cast hlt
  omega

/-- The model of `float32(val)` is a correct rounding: a finite result keeps the sign, has
at most 24 significant bits above the least exponent `-149`, and differs from `val` by at
most half a unit of its last place. -/
theorem toFloat32_fin (neg : Bool) (m : Nat) (e : Int) (sign : Bool) (m32 : Nat) (e32 : Int)
    (h : toFloat32 (F64.fin neg m e) = F64.fin sign m32 e32) :
    sign = neg ∧ m32 ≤ 2 ^ 24 ∧ (m ≠ 0 → -149 ≤ e32) ∧
    |(m : ℚ) * (2 : ℚ) ^ e - (m32 : ℚ) * (2 : ℚ) ^ e32| ≤ (2 : ℚ) ^ e32 / 2 := by
  unfold toFloat32 at h
  by_cases hm : m = 0
  · simp only [hm, if_true, F64.fin.injEq] at h
    obtain ⟨rfl, rfl, rfl⟩ := h
    simp [hm]
  · simp only [hm, if_false] at h
    split at h
    · exact absurd h (by simp)
    · simp only [F64.fin.injEq] at h
      obtain ⟨rfl, rfl, rfl⟩ := h
      generalize hq : max (e + (bitLen m : Int) - 1 - 23) (-149) = q
      have hq1 : e + (bitLen m : Int) - 24 ≤ q := by
        rw [← hq]
        exact le_trans (by omega) (le_max_left _ _)
      have hq2 : -149 ≤ q := by
        rw [← hq]
        exact le_max_right _ _
      have h2pos : (0 : ℚ) < (2 : ℚ) ^ q := by positivity
      have hsplit : (m : ℚ) * (2 : ℚ) ^ e = ((m : ℚ) * (2 : ℚ) ^ (e - q)) * (2 : ℚ) ^ q := by
        rw [mul_assoc, ← zpow_add₀ (by norm_num : (2 : ℚ) ≠ 0)]
        congr 2
        ring
      refine ⟨rfl, ?_, fun _ => hq2, ?_⟩
      · apply roundHalfEven_le
        have hlt : (m : ℚ) < (2 : ℚ) ^ (bitLen m : Int) := by
          rw [zpow_natCast]
          exact_mod_cast lt_two_pow_bitLen m
        have hle : (2 : ℚ) ^ (e - q) ≤ (2 : ℚ) ^ ((24 : Int) - (bitLen m : Int)) :=
          zpow_le_zpow_right₀ (by norm_num) (by omega)
        have hpos : (0 : ℚ) < (2 : ℚ) ^ (e - q) := by positivity
        calc (m : ℚ) * (2 : ℚ) ^ (e - q)
            ≤ (2 : ℚ) ^ (bitLen m : Int) * (2 : ℚ) ^ ((24 : Int) - (bitLen m : Int)) :=
              mul_le_mul (le_of_lt hlt) hle (le_of_lt hpos) (by positivity)
          _ = (2 : ℚ) ^ (24 : Int) := by
              rw [← zpow_add₀ (by norm_num : (2 : ℚ) ≠ 0)]
              congr 1
              ring
          _ = ((2 ^ 24 : Nat) : ℚ) := by norm_num
      · rw [hsplit, ← sub_mul, abs_mul, abs_of_pos h2pos]
        have hnear := (roundHalfEven_near m (e - q)).1
        calc |(m : ℚ) * (2 : ℚ) ^ (e - q) - (roundHalfEven m (e - q) : ℚ)| * (2 : ℚ) ^ q
            ≤ 1 / 2 * (2 : ℚ) ^ q := mul_le_mul_of_nonneg_right hnear (le_of_lt h2pos)
          _ = (2 : ℚ) ^ q / 2 := by ring

/-- C4, as amended: where the first value named `n` is a floating-point number `f` whose
conversion to 32-bit precision is finite, `DataValueString(n)` returns, with no error, the
decimal text without fractional digits of the integer nearest to `float32(f)` in
magnitude, a tie going to the even integer, after a `-` when the sign bit is set: `f` is
rounded to nearest, not truncated. -/
theorem dataValueString_float (item : Item) (name : String) (f : F64)
    (neg : Bool) (m : Nat) (e : Int)
    (h : FirstValue item name (Dynamic.float f)) (h32 : toFloat32 f = F64.fin neg m e) :
    ∃ N : Nat,
      DataValueString item name = ((if neg then "-" else "") ++ Nat.repr N, none) ∧
      |(|F64.toRat (toFloat32 f)| - (N : ℚ))| ≤ 1 / 2 ∧
      (|(|F64.toRat (toFloat32 f)| - (N : ℚ))| = 1 / 2 → Even N) := by
  refine ⟨roundHalfEven m e, ?_, ?_⟩
  · simp [DataValueString, dataValue_of_firstValue item name _ h, FormatFloatF0, h32]
  · rw [h32, abs_toRat_fin]
    exact roundHalfEven_near m e

/-- C4 on the data `n = 3.7` (the `float64` nearest to 3.7, whose `float32` is
`15518925 * 2^-22`). -/
theorem dataValueString_float_witness :
    ∃ N : Nat,
      DataValueString ⟨"", [⟨"n", Dynamic.float (F64.fin false 8331659310635418 (-51))⟩], []⟩ "n"
        = ((if false then "-" else "") ++ Nat.repr N, none) ∧
      |(|F64.toRat (toFloat32 (F64.fin false 8331659310635418 (-51)))| - (N : ℚ))| ≤ 1 / 2 ∧
      (|(|F64.toRat (toFloat32 (F64.fin false 8331659310635418 (-51)))| - (N : ℚ))| = 1 / 2
        → Even N) :=
  dataValueString_float ⟨"", [⟨"n", Dynamic.float (F64.fin false 8331659310635418 (-51))⟩], []⟩
    "n" (F64.fin false 8331659310635418 (-51)) false 15518925 (-22)
    ⟨[], ⟨"n", Dynamic.float (F64.fin false 8331659310635418 (-51))⟩, [], rfl, by simp, rfl, rfl⟩
    (by decide)

/-- C4 as stated fails: the `float64` nearest to 3.7 lies strictly between 3 and 4, so its
truncation is 3, yet `DataValueString` returns "4". -/
theorem dataValueString_float_rounds_up :
    (3 : ℚ) < F64.toRat (F64.fin false 8331659310635418 (-51)) ∧
    F64.toRat (F64.fin false 8331659310635418 (-51)) < 4 ∧
    DataValueString ⟨"", [⟨"n", Dynamic.float (F64.fin false 8331659310635418 (-51))⟩], []⟩ "n"
      = ("4", none) := by
  refine ⟨?_, ?_, by decide⟩
  · norm_num [F64.toRat]
  · norm_num [F64.toRat]

/-- C7, as amended: where the first value named `n` is a finite floating-point number `f`
whose truncation fits the signed 64-bit range, `DataValueInt(n)` returns `trunc(f)`, that
is `f` rounded toward zero, and no error. -/
theorem dataValueInt_float (item : Item) (name : String) (neg : Bool) (m : Nat) (e : Int)
    (h : FirstValue item name (Dynamic.float (F64.fin neg m e)))
    (hlo : -9223372036854775808 ≤ truncRat (F64.toRat (F64.fin neg m e)))
    (hhi : truncRat (F64.toRat (F64.fin neg m e)) ≤ 9223372036854775807) :
    DataValueInt item name = (truncRat (F64.toRat (F64.fin neg m e)), none) := by
  rw [truncRat_fin] at hlo hhi ⊢
  simp only [DataValueInt, dataValue_of_firstValue item name _ h, toInt64]
  rw [if_pos]
  constructor
  · norm_num
    exact hlo
  · norm_num
    omega

/-- C7, the scenario of the specification: the data `age = 29.0`. -/
theorem dataValueInt_float_witness :
    DataValueInt ⟨"", [⟨"age", Dynamic.float (F64.fin false 8162774324609024 (-48))⟩], []⟩ "age"
      = (truncRat (F64.toRat (F64.fin false 8162774324609024 (-48))), none) ∧
    truncRat (F64.toRat (F64.fin false 8162774324609024 (-48))) = 29 :=
  ⟨dataValueInt_float ⟨"", [⟨"age", Dynamic.float (F64.fin false 8162774324609024 (-48))⟩], []⟩
      "age" false 8162774324609024 (-48)
      ⟨[], ⟨"age", Dynamic.float (F64.fin false 8162774324609024 (-48))⟩, [], rfl, by simp,
        rfl, rfl⟩
      (by rw [truncRat_fin]; decide) (by rw [truncRat_fin]; decide),
   by rw [truncRat_fin]; decide⟩

/-- C7 as stated fails: for the `float64` `2^63` the truncation is 9223372036854775808,
which no `int64` holds, and `DataValueInt` returns another number with no error. -/
theorem dataValueInt_float_out_of_range :
    truncRat (F64.toRat (F64.fin false 4503599627370496 11)) = 9223372036854775808 ∧
    (DataValueInt ⟨"", [⟨"n", Dynamic.float (F64.fin false 4503599627370496 11)⟩], []⟩ "n").2
      = none ∧
    (DataValueInt ⟨"", [⟨"n", Dynamic.float (F64.fin false 4503599627370496 11)⟩], []⟩ "n").1
      ≠ truncRat (F64.toRat (F64.fin false 4503599627370496 11)) := by
  rw [truncRat_fin]
  decide

/-! ### Calendar -/

theorem isLeap_iff (year : Int) :
    isLeap year = true ↔ (year % 4 = 0 ∧ (year % 100 ≠ 0 ∨ year % 400 = 0)) := by
  simp [isLeap]


theorem daysSinceEpoch_cycles (a b c d : Int) (hb0 : 0 ≤ b) (hb : b ≤ 3) (hc0 : 0 ≤ c)
    (hc : c ≤ 24) (hd0 : 0 ≤ d) (hd : d ≤ 3) :
    daysSinceEpoch (400 * a + 100 * b + 4 * c + d + 1)
      = 146097 * a + 36524 * b + 1461 * c + 365 * d := by
  simp only [daysSinceEpoch]
  have e1 : (400 * a + 100 * b + 4 * c + d + 1 - 1) / 400 = a := by omega
  rw [e1]
  have e2 : (400 * a + 100 * b + 4 * c + d + 1 - 1 - 400 * a) / 100 = b := by omega
  rw [e2]
  have e3 : (400 * a + 100 * b + 4 * c + d + 1 - 1 - 400 * a - 100 * b) / 4 = c := by omega
  rw [e3]
  omega

theorem isLeap_cycles (a b c d : Int) (hb0 : 0 ≤ b) (hb : b ≤ 3) (hc0 : 0 ≤ c)
    (hc : c ≤ 24) (hd0 : 0 ≤ d) (hd : d ≤ 3) :
    isLeap (400 * a + 100 * b + 4 * c + d + 1) = true ↔ (d = 3 ∧ (c ≠ 24 ∨ b = 3)) := by
  rw [isLeap_iff]
  omega

theorem absYearDay_cycles (days : Int) :
    ∃ a b c d : Int, 0 ≤ b ∧ b ≤ 3 ∧ 0 ≤ c ∧ c ≤ 24 ∧ 0 ≤ d ∧ d ≤ 3 ∧
      (absYearDay days).1 = 400 * a + 100 * b + 4 * c + d + 1 ∧
      146097 * a + 36524 * b + 1461 * c + 365 * d + (absYearDay days).2 = days ∧
      0 ≤ (absYearDay days).2 ∧
      (absYearDay days).2 ≤ (if d = 3 ∧ (c ≠ 24 ∨ b = 3) then 365 else 364) := by
  simp only [absYearDay]
  generalize ha : days / 146097 = a
  generalize hd1 : days - 146097 * a = d1
  have hd1b : 0 ≤ d1 ∧ d1 ≤ 146096 := by omega
  generalize hb : d1 / 36524 - d1 / 36524 / 4 = b
  have hbb : 0 ≤ b ∧ b ≤ 3 := by omega
  generalize hd2 : d1 - 36524 * b = d2
  have hd2b : 0 ≤ d2 ∧ d2 ≤ 36524 ∧ (b < 3 → d2 ≤ 36523) := by omega
  generalize hc : d2 / 1461 = c
  have hcb : 0 ≤ c ∧ c ≤ 24 := by omega
  generalize hd3 : d2 - 1461 * c = d3
  have hd3b : 0 ≤ d3 ∧ d3 ≤ 1460 ∧ (c = 24 → b < 3 → d3 ≤ 1459) := by omega
  generalize hd : d3 / 365 - d3 / 365 / 4 = d
  have hdb : 0 ≤ d ∧ d ≤ 3 := by omega
  refine ⟨a, b, c, d, hbb.1, hbb.2, hcb.1, hcb.2, hdb.1, hdb.2, rfl, by omega, by omega, ?_⟩
  split <;> omega

theorem absYearDay_spec (days : Int) :
    daysSinceEpoch (absYearDay days).1 + (absYearDay days).2 = days ∧
    0 ≤ (absYearDay days).2 ∧
    (absYearDay days).2 ≤ (if isLeap (absYearDay days).1 then 365 else 364) := by
  obtain ⟨a, b, c, d, hb0, hb, hc0, hc, hd0, hd, hy, hsum, h0, hle⟩ := absYearDay_cycles days
  rw [hy, daysSinceEpoch_cycles a b c d hb0 hb hc0 hc hd0 hd]
  refine ⟨hsum, h0, ?_⟩
  by_cases hl : d = 3 ∧ (c ≠ 24 ∨ b = 3)
  · rw [if_pos hl] at hle
    rw [if_pos ((isLeap_cycles a b c d hb0 hb hc0 hc hd0 hd).mpr hl)]
    exact hle
  · rw [if_neg hl] at hle
    have : ¬ isLeap (400 * a + 100 * b + 4 * c + d + 1) = true :=
      fun h => hl ((isLeap_cycles a b c d hb0 hb hc0 hc hd0 hd).mp h)
    rw [if_neg this]
    exact hle

theorem monthDay_spec (day : Int) (h0 : 0 ≤ day) (h1 : day ≤ 364) :
    ∃ (mo : Nat) (d : Int),
      absMonthDay day = (mo, d) ∧
      1 ≤ mo ∧ mo ≤ 12 ∧ 1 ≤ d ∧ d ≤ daysBefore mo - daysBefore (mo - 1) ∧
      daysBefore (mo - 1) + (d - 1) = day ∧ (3 ≤ mo ↔ 59 ≤ day) := by
  have hk : ∃ k : Nat, day / 31 = (k : Int) ∧ k ≤ 11 := ⟨(day / 31).toNat, by omega, by omega⟩
  obtain ⟨k, hk, hk11⟩ := hk
  simp only [absMonthDay]
  rw [hk]
  simp only [Int.toNat_ofNat]
  interval_cases k <;> simp only [daysBefore, List.getD_cons_succ, List.getD_cons_zero] <;>
    split <;> refine ⟨_, _, rfl, ?_⟩ <;> simp <;> omega

theorem absDate_aux (days year yday : Int) (hsum : daysSinceEpoch year + yday = days)
    (h0 : 0 ≤ yday) (hle : yday ≤ (if isLeap year then 365 else 364)) :
    ∃ (mo : Nat) (d : Int),
      (if isLeap year ∧ yday = 31 + 29 - 1 then (year, 2, 29)
        else (year, absMonthDay (if isLeap year ∧ yday > 31 + 29 - 1 then yday - 1 else yday)))
        = (year, mo, d) ∧
      1 ≤ mo ∧ mo ≤ 12 ∧ 1 ≤ d ∧ d ≤ daysIn mo year ∧
      daysSinceEpoch year + daysBefore (mo - 1)
        + (if isLeap year = true ∧ 3 ≤ mo then 1 else 0) + (d - 1) = days := by
  by_cases hl : isLeap year = true
  · simp only [hl, if_true, true_and] at hle ⊢
    by_cases h59 : yday = 31 + 29 - 1
    · refine ⟨2, 29, by simp [h59], by norm_num, by norm_num, by norm_num, ?_, ?_⟩
      · simp [daysIn, hl]
      · simp [daysBefore]
        omega
    · simp only [h59, if_false]
      by_cases hgt : yday > 31 + 29 - 1
      · simp only [hgt, if_true]
        obtain ⟨mo, d, heq, hm1, hm12, hd1, hdle, hday, h3⟩ :=
          monthDay_spec (yday - 1) (by omega) (by omega)
        have hmo3 : 3 ≤ mo := h3.mpr (by omega)
        refine ⟨mo, d, by rw [heq], hm1, hm12, hd1, ?_, ?_⟩
        · have : ¬ (mo = 2) := by omega
          simp only [daysIn, this, false_and, if_false]
          exact hdle
        · rw [if_pos hmo3]
          omega
      · simp only [hgt, if_false]
        obtain ⟨mo, d, heq, hm1, hm12, hd1, hdle, hday, h3⟩ :=
          monthDay_spec yday (by omega) (by omega)
        have hmo3 : ¬ 3 ≤ mo := fun h => by
          have := h3.mp h
          omega
        refine ⟨mo, d, by rw [heq], hm1, hm12, hd1, ?_, ?_⟩
        · simp only [daysIn]
          split
          · rename_i h2
            have hmo2 : mo = 2 := h2.1
            subst hmo2
            simp [daysBefore] at hdle
            omega
          · exact hdle
        · rw [if_neg hmo3]
          omega
  · simp only [hl, if_false, false_and, Bool.false_eq_true] at hle ⊢
    obtain ⟨mo, d, heq, hm1, hm12, hd1, hdle, hday, h3⟩ :=
      monthDay_spec yday (by omega) (by omega)
    refine ⟨mo, d, by rw [heq], hm1, hm12, hd1, ?_, ?_⟩
    · simp only [daysIn, hl, and_false, if_false, Bool.false_eq_true]
      exact hdle
    · omega

theorem absDate_spec (days : Int) :
    ∃ (mo : Nat) (d : Int),
      absDate days = ((absYearDay days).1, mo, d) ∧
      1 ≤ mo ∧ mo ≤ 12 ∧ 1 ≤ d ∧ d ≤ daysIn mo (absYearDay days).1 ∧
      daysSinceEpoch (absYearDay days).1 + daysBefore (mo - 1)
        + (if isLeap (absYearDay days).1 = true ∧ 3 ≤ mo then 1 else 0) + (d - 1) = days := by
  obtain ⟨hsum, h0, hle⟩ := absYearDay_spec days
  exact absDate_aux days _ _ hsum h0 hle

/-! ### Formatting and parsing a time -/

theorem digitChar_spec (d : Nat) (h : d < 10) :
    isDigitChar (digitChar d) = true ∧ digitOf (digitChar d) = (d : Int) := by
  interval_cases d <;> decide

theorem appendInt_two (n : Nat) (h : n < 100) :
    appendInt (n : Int) 2 = [digitChar (n / 10), digitChar (n % 10)] := by
  have hneg : ¬ ((n : Int) < 0) := by omega
  simp [appendInt, hneg, h]

theorem appendInt_four (n : Nat) (h : n < 10000) :
    appendInt (n : Int) 4
      = [digitChar (n / 1000), digitChar (n / 100 % 10), digitChar (n / 10 % 10),
          digitChar (n % 10)] := by
  have hneg : ¬ ((n : Int) < 0) := by omega
  simp [appendInt, hneg, h]

theorem getnum_appendInt (n : Nat) (h : n < 100) (rest : List Char) (isFixed : Bool) :
    getnum (appendInt (n : Int) 2 ++ rest) isFixed = some ((n : Int), rest) := by
  obtain ⟨h1, h2⟩ := digitChar_spec (n / 10) (by omega)
  obtain ⟨h3, h4⟩ := digitChar_spec (n % 10) (by omega)
  rw [appendInt_two n h]
  simp only [List.cons_append, List.nil_append, getnum, h1, h3, if_true, h2, h4]
  congr 2
  omega

theorem parseYear_appendInt (n : Nat) (h : n < 10000) (rest : List Char) :
    parseYear (appendInt (n : Int) 4 ++ rest) = some ((n : Int), rest) := by
  obtain ⟨h1, h2⟩ := digitChar_spec (n / 1000) (by omega)
  obtain ⟨h3, h4⟩ := digitChar_spec (n / 100 % 10) (by omega)
  obtain ⟨h5, h6⟩ := digitChar_spec (n / 10 % 10) (by omega)
  obtain ⟨h7, h8⟩ := digitChar_spec (n % 10) (by omega)
  rw [appendInt_four n h]
  simp only [List.cons_append, List.nil_append, parseYear, h1, h3, h5, h7, and_self, if_true,
    h2, h4, h6, h8]
  congr 2
  omega

theorem parseFraction_of_head (c : Char) (rest : List Char) (h1 : c ≠ '.') (h2 : c ≠ ',') :
    parseFraction (c :: rest) = (0, c :: rest) := by
  cases rest with
  | nil => rfl
  | cons c1 rest => simp [parseFraction, h1, h2]

theorem parseFraction_formatZone (offset : Int) :
    parseFraction (formatZone offset) = (0, formatZone offset) := by
  unfold formatZone
  split
  · rfl
  · simp only
    split
    · exact parseFraction_of_head _ _ (by decide) (by decide)
    · exact parseFraction_of_head _ _ (by decide) (by decide)

theorem parseZone_digits (sign : Char) (hZ : sign ≠ 'Z') (z : Nat) (hz : z ≤ 1440) :
    parseZone (sign :: (appendInt ((z : Int) / 60) 2 ++ ':' :: appendInt ((z : Int) % 60) 2))
      = if sign = '+' then some (60 * (z : Int), [])
        else if sign = '-' then some (-(60 * (z : Int)), []) else none := by
  have e1 : (z : Int) / 60 = ((z / 60 : Nat) : Int) := by omega
  have e2 : (z : Int) % 60 = ((z % 60 : Nat) : Int) := by omega
  have g1 := getnum_appendInt (z / 60) (by omega) [] true
  have g2 := getnum_appendInt (z % 60) (by omega) [] true
  rw [appendInt_two (z / 60) (by omega)] at g1
  rw [appendInt_two (z % 60) (by omega)] at g2
  simp only [List.cons_append, List.nil_append] at g1 g2
  rw [e1, e2, appendInt_two (z / 60) (by omega), appendInt_two (z % 60) (by omega)]
  simp only [List.cons_append, List.nil_append]
  unfold parseZone
  split
  · rename_i heq
    simp at heq
  · rename_i heq
    simp only [List.cons.injEq] at heq
    exact absurd heq.1 hZ
  · rename_i heq
    simp only [List.cons.injEq] at heq
    obtain ⟨rfl, rfl, rfl, rfl, rfl, rfl, rfl⟩ := heq
    simp only [ne_eq, not_true_eq_false, if_false, g1, g2]
    have hh : ¬ (((z / 60 : Nat) : Int) > 24 ∨ ((z % 60 : Nat) : Int) > 60) := by omega
    rw [if_neg hh]
    have hv : (((z / 60 : Nat) : Int) * 60 + ((z % 60 : Nat) : Int)) * 60 = 60 * (z : Int) := by
      omega
    rw [hv]
  · rename_i hno
    exact (hno _ _ _ _ _ _ _ rfl).elim

theorem parseZone_formatZone (offset : Int) (hmin : offset % 60 = 0)
    (hlo : -86400 ≤ offset) (hhi : offset ≤ 86400) :
    parseZone (formatZone offset) = some (offset, []) := by
  unfold formatZone
  by_cases h0 : offset = 0
  · simp [h0, parseZone]
  · simp only [h0, if_false]
    have hk : ∃ k : Int, offset = 60 * k := ⟨offset / 60, by omega⟩
    obtain ⟨k, rfl⟩ := hk
    rw [Int.mul_tdiv_cancel_left k (by norm_num)]
    by_cases hneg : k < 0
    · simp only [hneg, if_true]
      have hz : ∃ z : Nat, -k = (z : Int) ∧ z ≤ 1440 := ⟨(-k).toNat, by omega, by omega⟩
      obtain ⟨z, hz, hz1⟩ := hz
      rw [hz]
      simp only [List.singleton_append, List.append_assoc, List.cons_append, List.nil_append]
      rw [parseZone_digits '-' (by decide) z hz1]
      simp
      omega
    · simp only [hneg, if_false]
      have hz : ∃ z : Nat, k = (z : Int) ∧ z ≤ 1440 := ⟨k.toNat, by omega, by omega⟩
      obtain ⟨z, hz, hz1⟩ := hz
      rw [hz]
      simp only [List.singleton_append, List.append_assoc, List.cons_append, List.nil_append]
      rw [parseZone_digits '+' (by decide) z hz1]
      simp

theorem daysIn_le (mo : Nat) (year : Int) (h1 : 1 ≤ mo) (h12 : mo ≤ 12) : daysIn mo year ≤ 31 := by
  unfold daysIn
  split
  · norm_num
  · interval_cases mo <;> simp [daysBefore]

theorem Date_in_range (year : Int) (mo : Nat) (day hour min sec : Int)
    (hm1 : 1 ≤ mo) (hm12 : mo ≤ 12) (hh0 : 0 ≤ hour) (hh : hour < 24)
    (hmi0 : 0 ≤ min) (hmi : min < 60) (hs0 : 0 ≤ sec) (hs : sec < 60) :
    Date year (mo : Int) day hour min sec 0
      = ⟨(daysSinceEpoch year + daysBefore (mo - 1)
            + (if isLeap year = true ∧ 3 ≤ mo then 1 else 0) + (day - 1)) * 86400
          + (hour * 3600 + min * 60 + sec), 0, 0⟩ := by
  have e1 : ((mo : Int) - 1) / 12 = 0 := by omega
  have e2 : ((mo : Int) - 1) % 12 = ((mo - 1 : Nat) : Int) := by omega
  have e3 : (0 : Int) / 1000000000 = 0 := by norm_num
  have e4 : (0 : Int) % 1000000000 = 0 := by norm_num
  have e5 : sec / 60 = 0 := by omega
  have e6 : sec % 60 = sec := by omega
  have e7 : min / 60 = 0 := by omega
  have e8 : min % 60 = min := by omega
  have e9 : hour / 24 = 0 := by omega
  have e10 : hour % 24 = hour := by omega
  have e11 : (((mo - 1 : Nat) : Int) + 1 ≥ 3) ↔ 3 ≤ mo := by omega
  simp only [Date, norm, e1, e2, e3, e4, add_zero, e5, e6, e7, e8, e9, e10, Int.toNat_ofNat, e11]

theorem parseFields_format (t : Time) (hn : t.nsec = 0) (hmin : t.offset % 60 = 0)
    (hlo : -86400 ≤ t.offset) (hhi : t.offset ≤ 86400)
    (hy0 : 0 ≤ t.Year) (hy1 : t.Year ≤ 9999) :
    parseFields t.FormatRFC3339.data = some t := by
  obtain ⟨mo, d, hdate, hm1, hm12, hd1, hdle, hsum⟩ := absDate_spec ((t.sec + t.offset) / 86400)
  have hyear : t.Year = (absYearDay ((t.sec + t.offset) / 86400)).1 := by
    simp [Time.Year, hdate]
  rw [hyear] at hy0 hy1
  have hd31 := daysIn_le mo (absYearDay ((t.sec + t.offset) / 86400)).1 hm1 hm12
  obtain ⟨y, hy, hylt⟩ : ∃ y : Nat, (absYearDay ((t.sec + t.offset) / 86400)).1 = (y : Int)
      ∧ y < 10000 := ⟨(absYearDay ((t.sec + t.offset) / 86400)).1.toNat, by omega, by omega⟩
  obtain ⟨dn, hdn, hdnlt⟩ : ∃ dn : Nat, d = (dn : Int) ∧ dn < 100 :=
    ⟨d.toNat, by omega, by omega⟩
  obtain ⟨hr, hhr, hhrlt⟩ : ∃ hr : Nat, (t.sec + t.offset) % 86400 / 3600 = (hr : Int)
      ∧ hr < 24 := ⟨((t.sec + t.offset) % 86400 / 3600).toNat, by omega, by omega⟩
  obtain ⟨mi, hmi, hmilt⟩ : ∃ mi : Nat, (t.sec + t.offset) % 86400 % 3600 / 60 = (mi : Int)
      ∧ mi < 60 := ⟨((t.sec + t.offset) % 86400 % 3600 / 60).toNat, by omega, by omega⟩
  obtain ⟨sc, hsc, hsclt⟩ : ∃ sc : Nat, (t.sec + t.offset) % 86400 % 60 = (sc : Int)
      ∧ sc < 60 := ⟨((t.sec + t.offset) % 86400 % 60).toNat, by omega, by omega⟩
  have hmo0 : ¬ ((mo : Int) ≤ 0 ∨ 12 < (mo : Int)) := by omega
  have hhr0 : ¬ ((hr : Int) < 0 ∨ 24 ≤ (hr : Int)) := by omega
  have hmi0 : ¬ ((mi : Int) < 0 ∨ 60 ≤ (mi : Int)) := by omega
  have hsc0 : ¬ ((sc : Int) < 0 ∨ 60 ≤ (sc : Int)) := by omega
  have hday : ¬ ((dn : Int) < 1 ∨ (dn : Int) > daysIn mo (y : Int)) := by
    rw [hy] at hdle
    omega
  have hD := Date_in_range (y : Int) mo (dn : Int) (hr : Int) (mi : Int) (sc : Int) hm1 hm12
    (by omega) (by omega) (by omega) (by omega) (by omega) (by omega)
  simp only [Time.FormatRFC3339, hdate, hy, hdn, hhr, hmi, hsc, List.append_assoc,
    List.singleton_append, List.cons_append, List.nil_append]
  simp only [parseFields, parseYear_appendInt y hylt, skipByte, if_true,
    getnum_appendInt mo (by omega), hmo0, if_false, getnum_appendInt dn hdnlt,
    getnum_appendInt hr (by omega), hhr0, getnum_appendInt mi (by omega), hmi0,
    getnum_appendInt sc (by omega), hsc0, parseFraction_formatZone,
    parseZone_formatZone t.offset hmin hlo hhi, ne_eq, not_true_eq_false, Int.toNat_ofNat,
    hday, hD]
  rw [hy, hdn] at hsum
  rw [hsum]
  have hsec : (t.sec + t.offset) / 86400 * 86400 + ((hr : Int) * 3600 + (mi : Int) * 60 + (sc : Int))
      - t.offset = t.sec := by omega
  rw [hsec]
  cases t with
  | mk s n o =>
    simp only at hn
    simp [hn]

/-- C8, as amended: for every instant `t` with no fraction of a second, shown in a zone
whose offset is a whole number of minutes of at most 24 hours and in which its calendar
year lies in 0..9999: where the first value named `n` is the string `t.Format(RFC3339)`,
`DataValueTime(n)` returns no error and an instant equal to `t` (with the same offset). -/
theorem dataValueTime_roundtrip (now : Time) (item : Item) (name : String) (t : Time)
    (h : FirstValue item name (Dynamic.str t.FormatRFC3339))
    (hn : t.nsec = 0) (hmin : t.offset % 60 = 0)
    (hlo : -86400 ≤ t.offset) (hhi : t.offset ≤ 86400)
    (hy0 : 0 ≤ t.Year) (hy1 : t.Year ≤ 9999) :
    DataValueTime now item name = (t, none) ∧
    (DataValueTime now item name).1.Equal t = true := by
  have hv : DataValueTime now item name = (t, none) := by
    simp only [DataValueTime, dataValue_of_firstValue item name _ h, ParseRFC3339,
      parseFields_format t hn hmin hlo hhi hy0 hy1]
  rw [hv]
  exact ⟨rfl, by simp [Time.Equal]⟩

/-- C8, the scenario of the specification: "2023-01-01T00:00:00Z" is the RFC3339 form of
the instant 63808128000 seconds after January 1, year 1, and yields exactly it. -/
theorem dataValueTime_roundtrip_witness :
    Time.FormatRFC3339 ⟨63808128000, 0, 0⟩ = "2023-01-01T00:00:00Z" ∧
    DataValueTime ⟨63900000000, 0, 0⟩
        ⟨"", [⟨"created_at", Dynamic.str "2023-01-01T00:00:00Z"⟩], []⟩ "created_at"
      = (⟨63808128000, 0, 0⟩, none) :=
  ⟨by decide,
   (dataValueTime_roundtrip ⟨63900000000, 0, 0⟩
      ⟨"", [⟨"created_at", Dynamic.str "2023-01-01T00:00:00Z"⟩], []⟩ "created_at"
      ⟨63808128000, 0, 0⟩
      ⟨[], ⟨"created_at", Dynamic.str "2023-01-01T00:00:00Z"⟩, [], rfl, by simp, rfl,
        congrArg Dynamic.str (by decide)⟩
      rfl (by decide) (by decide) (by decide) (by decide) (by decide)).1⟩

/-- C8 as stated fails: the instant half a second after 2023-01-01T00:00:00Z has the
RFC3339 form "2023-01-01T00:00:00Z", which `DataValueTime` reads back as the whole second,
an instant that is not equal to it. -/
theorem dataValueTime_roundtrip_drops_fraction :
    Time.FormatRFC3339 ⟨63808128000, 500000000, 0⟩ = "2023-01-01T00:00:00Z" ∧
    DataValueTime ⟨63900000000, 0, 0⟩
        ⟨"", [⟨"created_at", Dynamic.str "2023-01-01T00:00:00Z"⟩], []⟩ "created_at"
      = (⟨63808128000, 0, 0⟩, none) ∧
    Time.Equal ⟨63808128000, 0, 0⟩ ⟨63808128000, 500000000, 0⟩ = false := by
  decide

theorem parseRFC3339_cases (value : String) :
    (ParseRFC3339 value).2 = none
    ∨ ParseRFC3339 value = (zeroTime, some (Error.parseError RFC3339 value)) := by
  unfold ParseRFC3339
  split
  · exact Or.inr rfl
  · exact Or.inl rfl

/-- The time `DataValueTime` returns with an error, path by path: the clock reading on
the two paths that build the error themselves; only the `*time.ParseError` of
`time.Parse`, passed on as it comes, brings the zero time. -/
theorem dataValueTime_error_cases (now : Time) (item : Item) (name : String) (e : Error)
    (herr : (DataValueTime now item name).2 = some e) :
    ((∀ layout value, e ≠ Error.parseError layout value) →
      (DataValueTime now item name).1 = now) ∧
    (∀ layout value, e = Error.parseError layout value →
      (DataValueTime now item name).1 = zeroTime) := by
  unfold DataValueTime at herr ⊢
  rcases hdv : DataValue item name with ⟨v, err⟩
  rw [hdv] at herr
  cases err with
  | some e0 =>
    have hcases := dataValueLoop_error_cases name item.Data
    rw [← DataValue, hdv] at hcases
    simp only [reduceCtorEq, false_or, Option.some.injEq] at hcases
    subst hcases
    simp only [Option.some.injEq] at herr
    subst herr
    simp
  | none =>
    cases v with
    | str sv =>
      simp only at herr ⊢
      rcases parseRFC3339_cases sv with h | h
      · rw [h] at herr
        exact absurd herr (by simp)
      · rw [h] at herr ⊢
        simp only [Option.some.injEq] at herr
        subst herr
        simp
    | float f =>
      simp only [Option.some.injEq] at herr
      subst herr
      simp
    | bool b =>
      simp only [Option.some.injEq] at herr
      subst herr
      simp
    | null =>
      simp only [Option.some.injEq] at herr
      subst herr
      simp
    | array a =>
      simp only [Option.some.injEq] at herr
      subst herr
      simp
    | object o =>
      simp only [Option.some.injEq] at herr
      subst herr
      simp

/-- The error paths on which `DataValueTime(n)` returns the current wall-clock time with
its error: an absent field and a value that is not a string, that is every error but the
one of `time.Parse`. -/
theorem dataValueTime_error_value (now : Time) (item : Item) (name : String) (e : Error)
    (herr : (DataValueTime now item name).2 = some e)
    (hkind : ∀ layout value, e ≠ Error.parseError layout value) :
    (DataValueTime now item name).1 = now :=
  (dataValueTime_error_cases now item name e herr).1 hkind

/-- On the data `created_at = true`, not a string, the clock reading comes back. -/
theorem dataValueTime_error_value_witness :
    (DataValueTime ⟨63900000000, 0, 0⟩ ⟨"", [⟨"created_at", Dynamic.bool true⟩], []⟩
      "created_at").1 = ⟨63900000000, 0, 0⟩ :=
  dataValueTime_error_value ⟨63900000000, 0, 0⟩ ⟨"", [⟨"created_at", Dynamic.bool true⟩], []⟩
    "created_at" (Error.text "Unable to convert the value into a time.") (by decide)
    (by simp)

/-- C9, the code at the failing input: for the string "yesterday" `DataValueTime` returns
the error of `time.Parse` and, with it, the zero time, where the claim and the two other
error paths of the method give the clock reading. -/
theorem dataValueTime_error_value_zero :
    DataValueTime ⟨63900000000, 0, 0⟩ ⟨"", [⟨"created_at", Dynamic.str "yesterday"⟩], []⟩
        "created_at"
      = (zeroTime, some (Error.parseError RFC3339 "yesterday")) ∧
    zeroTime ≠ (⟨63900000000, 0, 0⟩ : Time) := by
  decide

/-! ### Absent fields, null and unsupported values -/

theorem first_or_absent (name : String) (entries : List Data) :
    (∀ d ∈ entries, d.Name ≠ name) ∨
    ∃ (front : List Data) (d : Data) (back : List Data),
      entries = front ++ d :: back ∧ (∀ x ∈ front, x.Name ≠ name) ∧ d.Name = name := by
  induction entries with
  | nil => exact Or.inl (by simp)
  | cons x xs ih =>
    by_cases hx : x.Name = name
    · exact Or.inr ⟨[], x, xs, rfl, by simp, hx⟩
    · rcases ih with h | ⟨front, d, back, hsplit, hfront, hname⟩
      · refine Or.inl ?_
        intro d hd
        rcases List.mem_cons.mp hd with h1 | h1
        · rw [h1]
          exact hx
        · exact h d h1
      · refine Or.inr ⟨x :: front, d, back, by rw [hsplit]; rfl, ?_, hname⟩
        intro y hy
        rcases List.mem_cons.mp hy with h1 | h1
        · rw [h1]
          exact hx
        · exact hfront y h1

theorem firstValue_or_absent (item : Item) (name : String) :
    (∀ d ∈ item.Data, d.Name ≠ name) ∨ ∃ v : Dynamic, FirstValue item name v := by
  rcases first_or_absent name item.Data with h | ⟨front, d, back, hsplit, hfront, hname⟩
  · exact Or.inl h
  · exact Or.inr ⟨d.Value, front, d, back, hsplit, hfront, hname, rfl⟩

theorem dataValue_absent (item : Item) (name : String) (h : ∀ d ∈ item.Data, d.Name ≠ name) :
    DataValue item name = (Dynamic.str "", some (Error.text "No match found")) :=
  dataValueLoop_absent name item.Data h

/-- C11: where the first value named `n` is null, `DataValueString(n)` returns the empty
string and no error. -/
theorem dataValueString_null (item : Item) (name : String)
    (h : FirstValue item name Dynamic.null) : DataValueString item name = ("", none) := by
  simp [DataValueString, dataValue_of_firstValue item name _ h]

/-- C11 on the data `nickname = null`. -/
theorem dataValueString_null_witness :
    DataValueString ⟨"", [⟨"nickname", Dynamic.null⟩], []⟩ "nickname" = ("", none) :=
  dataValueString_null ⟨"", [⟨"nickname", Dynamic.null⟩], []⟩ "nickname"
    ⟨[], ⟨"nickname", Dynamic.null⟩, [], rfl, by simp, rfl, rfl⟩

/-- C12: where no entry of `I.Data` is named `n`, `DataValue(n)` fails with "No match
found" and every typed extractor fails with that same error: `DataValueString(n)` returns
the empty string with it, `DataValueInt(n)` returns 0 with it, and `DataValueTime(n)`
returns it. -/
theorem extractors_absent (now : Time) (item : Item) (name : String)
    (h : ∀ d ∈ item.Data, d.Name ≠ name) :
    (DataValue item name).2 = some (Error.text "No match found") ∧
    DataValueString item name = ("", (DataValue item name).2) ∧
    DataValueInt item name = (0, (DataValue item name).2) ∧
    (DataValueTime now item name).2 = (DataValue item name).2 := by
  simp [DataValueString, DataValueInt, DataValueTime, dataValue_absent item name h]

/-- C12, the scenario of the specification: on the data `email = "a@b.com"` the name
`missing` fails in every extractor. -/
theorem extractors_absent_witness :
    (DataValue ⟨"", [⟨"email", Dynamic.str "a@b.com"⟩], []⟩ "missing").2
      = some (Error.text "No match found") ∧
    DataValueString ⟨"", [⟨"email", Dynamic.str "a@b.com"⟩], []⟩ "missing"
      = ("", (DataValue ⟨"", [⟨"email", Dynamic.str "a@b.com"⟩], []⟩ "missing").2) ∧
    DataValueInt ⟨"", [⟨"email", Dynamic.str "a@b.com"⟩], []⟩ "missing"
      = (0, (DataValue ⟨"", [⟨"email", Dynamic.str "a@b.com"⟩], []⟩ "missing").2) ∧
    (DataValueTime ⟨63900000000, 0, 0⟩ ⟨"", [⟨"email", Dynamic.str "a@b.com"⟩], []⟩
        "missing").2
      = (DataValue ⟨"", [⟨"email", Dynamic.str "a@b.com"⟩], []⟩ "missing").2 :=
  extractors_absent ⟨63900000000, 0, 0⟩ ⟨"", [⟨"email", Dynamic.str "a@b.com"⟩], []⟩ "missing"
    (by decide)

/-- C17: where the first value named `n` is none of string, boolean, floating-point number
or null (an array or an object), `DataValueString(n)` returns the empty string with the
error "Unable to covert Data Element n to a string.", whose message holds the field name;
and whenever `DataValueString` fails, the string it returns is empty. -/
theorem dataValueString_unsupported (item : Item) (name : String) :
    (∀ v : Dynamic, FirstValue item name v →
      (∀ s, v ≠ Dynamic.str s) → (∀ b, v ≠ Dynamic.bool b) → (∀ f, v ≠ Dynamic.float f) →
      v ≠ Dynamic.null →
      DataValueString item name
        = ("", some (Error.text ("Unable to covert Data Element " ++ name ++ " to a string.")))) ∧
    ((DataValueString item name).2 ≠ none → (DataValueString item name).1 = "") := by
  constructor
  · intro v h hs hb hf hn
    rw [DataValueString, dataValue_of_firstValue item name v h]
    cases v with
    | str s => exact absurd rfl (hs s)
    | bool b => exact absurd rfl (hb b)
    | float f => exact absurd rfl (hf f)
    | null => exact absurd rfl hn
    | array a => rfl
    | object o => rfl
  · intro herr
    rcases firstValue_or_absent item name with h | ⟨v, h⟩
    · simp [DataValueString, dataValue_absent item name h]
    · rw [DataValueString, dataValue_of_firstValue item name v h] at herr ⊢
      cases v with
      | str s => exact absurd rfl herr
      | bool b => exact absurd rfl herr
      | float f => exact absurd rfl herr
      | null => exact absurd rfl herr
      | array a => rfl
      | object o => rfl

/-- C17 on the data `tags = []`, an array. -/
theorem dataValueString_unsupported_witness :
    DataValueString ⟨"", [⟨"tags", Dynamic.array []⟩], []⟩ "tags"
      = ("", some (Error.text "Unable to covert Data Element tags to a string.")) :=
  (dataValueString_unsupported ⟨"", [⟨"tags", Dynamic.array []⟩], []⟩ "tags").1
    (Dynamic.array []) ⟨[], ⟨"tags", Dynamic.array []⟩, [], rfl, by simp, rfl, rfl⟩
    (by simp) (by simp) (by simp) (by simp)

/-! ### Appending links -/

theorem findHrefLoop_append (rel : String) (links more : List Link) :
    ((findHrefLoop rel links).2 = none →
      findHrefLoop rel (links ++ more) = findHrefLoop rel links) ∧
    ((findHrefLoop rel links).2 ≠ none →
      findHrefLoop rel (links ++ more) = findHrefLoop rel more) := by
  induction links with
  | nil => simp [findHrefLoop]
  | cons x xs ih =>
    by_cases hx : x.Rel = rel
    · simp [findHrefLoop, hx]
    · simpa [findHrefLoop, hx] using ih

/-- C18: if `findHref(r, L)` succeeds then `findHref(r, L ++ M)` returns what
`findHref(r, L)` returns, and if it fails then `findHref(r, L ++ M)` returns what
`findHref(r, M)` returns; on the empty list `findHref` fails for every `r`. -/
theorem findHref_append (teamSnap : TeamSnap) (rel : String) (links more : List Link) :
    ((findHref teamSnap rel links).2 = none →
      findHref teamSnap rel (links ++ more) = findHref teamSnap rel links) ∧
    ((findHref teamSnap rel links).2 ≠ none →
      findHref teamSnap rel (links ++ more) = findHref teamSnap rel more) ∧
    (findHref teamSnap rel []).2 ≠ none := by
  refine ⟨(findHrefLoop_append rel links more).1, (findHrefLoop_append rel links more).2, ?_⟩
  simp [findHref, findHrefLoop]

/-- C18 on two links: a link appended after the match `me` does not change the result,
and after a failure the appended list decides. -/
theorem findHref_append_witness :
    findHref ⟨"", "", []⟩ "me" ([⟨"me", "a"⟩] ++ [⟨"me", "b"⟩]) = ("a", none) ∧
    findHref ⟨"", "", []⟩ "teams" ([⟨"me", "a"⟩] ++ [⟨"teams", "b"⟩]) = ("b", none) :=
  ⟨((findHref_append ⟨"", "", []⟩ "me" [⟨"me", "a"⟩] [⟨"me", "b"⟩]).1 (by decide)).trans
      (by decide),
   ((findHref_append ⟨"", "", []⟩ "teams" [⟨"me", "a"⟩] [⟨"teams", "b"⟩]).2.1
      (by decide)).trans (by decide)⟩

/-! ### The client -/

theorem query_calls (http : Http) (teamSnap : TeamSnap) (href : String) :
    (query http teamSnap href).calls = [href] := rfl

theorem query_result_cases (http : Http) (teamSnap : TeamSnap) (href : String) :
    (∃ resp, (query http teamSnap href).result = (some resp, none)) ∨
    (∃ err, (query http teamSnap href).result = (none, some err)) := by
  simp only [query]
  cases http.NewRequest "GET" href with
  | error err => exact Or.inr ⟨err, rfl⟩
  | ok req =>
    simp only
    cases http.Do { req with
        Header := req.Header ++ [("Content-Type", "application/json"),
          ("Authorization", "Bearer " ++ teamSnap.AuthToken)] } with
    | error err => exact Or.inr ⟨err, rfl⟩
    | ok respBody =>
      simp only
      cases http.ReadAll respBody with
      | error err => exact Or.inr ⟨err, rfl⟩
      | ok body =>
        simp only
        cases http.Unmarshal body with
        | error err => exact Or.inr ⟨err, rfl⟩
        | ok response => exact Or.inl ⟨response, rfl⟩

theorem fetch_of_href (http : Http) (teamSnap : TeamSnap) (rel : String) (links : List Link)
    (href : String) (h : findHref teamSnap rel links = (href, none)) :
    (Fetch http teamSnap rel links).calls = [href] ∧
    (∀ resp, (query http teamSnap href).result = (some resp, none) →
      (Fetch http teamSnap rel links).result = (some resp, none)) ∧
    (∀ r err, (query http teamSnap href).result = (r, some err) →
      (Fetch http teamSnap rel links).result = (none, some err)) := by
  simp only [Fetch, h]
  have hc := query_calls http teamSnap href
  rcases hq : query http teamSnap href with ⟨⟨r, e⟩, calls⟩
  rw [hq] at hc
  simp only at hc
  subst hc
  cases e with
  | some err =>
    refine ⟨rfl, ?_, ?_⟩
    · intro resp hr
      simp at hr
    · intro r2 err2 hr
      simp only [Prod.mk.injEq, Option.some.injEq] at hr
      rw [hr.2]
  | none =>
    refine ⟨rfl, ?_, ?_⟩
    · intro resp hr
      simp only [Prod.mk.injEq, and_true] at hr
      rw [hr]
    · intro r2 err2 hr
      simp at hr

/-- C13: if no link of `L` has Rel `r`, `Fetch(r, L)` returns no response and the error
"No href found for rel: r" and never calls `query`; otherwise it calls `query` exactly
once, on the Href of the first link of `L` whose Rel is `r`, and returns that call's
response when it succeeds, and no response with that call's error when it fails. -/
theorem fetch_resolves (http : Http) (teamSnap : TeamSnap) (rel : String) (links : List Link) :
    ((∀ l ∈ links, l.Rel ≠ rel) →
      Fetch http teamSnap rel links
        = ⟨(none, some (Error.text ("No href found for rel: " ++ rel))), []⟩) ∧
    (∀ link : Link, FirstLink links rel link →
      (Fetch http teamSnap rel links).calls = [link.Href] ∧
      (∀ resp, (query http teamSnap link.Href).result = (some resp, none) →
        (Fetch http teamSnap rel links).result = (some resp, none)) ∧
      (∀ r err, (query http teamSnap link.Href).result = (r, some err) →
        (Fetch http teamSnap rel links).result = (none, some err))) := by
  constructor
  · intro h
    have hf : findHref teamSnap rel links
        = ("", some (Error.text ("No href found for rel: " ++ rel))) := by
      rw [findHref]
      clear http teamSnap
      induction links with
      | nil => rfl
      | cons x xs ih =>
        have hx : x.Rel ≠ rel := h x (List.mem_cons_self x xs)
        simp only [findHrefLoop, hx, if_false]
        exact ih (fun l hl => h l (List.mem_cons_of_mem x hl))
    simp [Fetch, hf]
  · rintro link ⟨front, back, hsplit, hfront, hrel⟩
    apply fetch_of_href
    rw [findHref, hsplit]
    exact findHrefLoop_of_first rel front link back hfront hrel

/-- C13 on the example transport: `me` is fetched with one call, on the address of the
first link `me`; an unknown relation gives the error with no call; an unreachable address
gives the transport's error after one call. -/
theorem fetch_resolves_witness :
    (Fetch exampleHttp ⟨"token", "", []⟩ "me"
      [⟨"me", "https://api.teamsnap.com/v3/me"⟩, ⟨"me", "https://other.example/"⟩]).calls
      = ["https://api.teamsnap.com/v3/me"] ∧
    Fetch exampleHttp ⟨"token", "", []⟩ "other" [⟨"me", "https://api.teamsnap.com/v3/me"⟩]
      = ⟨(none, some (Error.text "No href found for rel: other")), []⟩ ∧
    Fetch exampleHttp ⟨"token", "", []⟩ "me" [⟨"me", "https://down.example/"⟩]
      = ⟨(none, some (Error.text "dial tcp: no route to host")), ["https://down.example/"]⟩ :=
  ⟨((fetch_resolves exampleHttp ⟨"token", "", []⟩ "me"
      [⟨"me", "https://api.teamsnap.com/v3/me"⟩, ⟨"me", "https://other.example/"⟩]).2
      ⟨"me", "https://api.teamsnap.com/v3/me"⟩
      ⟨[], [⟨"me", "https://other.example/"⟩], rfl, by simp, rfl⟩).1,
   (fetch_resolves exampleHttp ⟨"token", "", []⟩ "other"
      [⟨"me", "https://api.teamsnap.com/v3/me"⟩]).1 (by decide),
   rfl⟩

/-- C14: `Initialize` calls `query` once, on the root address and on no other; if that
call fails it returns the call's error and the client is unchanged in `AuthToken`,
`Version` and `RootLinks`; if it succeeds it returns no error and the client has the
response collection's version and links and the `AuthToken` it had.  It never panics. -/
theorem initialize_frame (http : Http) (teamSnap : TeamSnap) :
    (Initialize http teamSnap).calls = ["https://api.teamsnap.com/v3/"] ∧
    (∀ r err, (query http teamSnap rootURL).result = (r, some err) →
      (Initialize http teamSnap).result = Outcome.returns (teamSnap, some err)) ∧
    (∀ resp, (query http teamSnap rootURL).result = (some resp, none) →
      (Initialize http teamSnap).result
        = Outcome.returns
            (⟨teamSnap.AuthToken, resp.Collection.Version, resp.Collection.Links⟩, none)) ∧
    (Initialize http teamSnap).result ≠ Outcome.panics := by
  have hc := query_calls http teamSnap rootURL
  have hcases := query_result_cases http teamSnap rootURL
  simp only [Initialize]
  rcases hq : query http teamSnap rootURL with ⟨⟨r, e⟩, calls⟩
  rw [hq] at hc hcases
  simp only at hc hcases
  subst hc
  rcases hcases with ⟨resp, hr⟩ | ⟨err, hr⟩
  · simp only [Prod.mk.injEq] at hr
    obtain ⟨rfl, rfl⟩ := hr
    refine ⟨rfl, ?_, ?_, ?_⟩
    · intro r2 err2 h2
      simp at h2
    · intro resp2 h2
      simp only [Prod.mk.injEq, Option.some.injEq, and_true] at h2
      rw [h2]
    · simp
  · simp only [Prod.mk.injEq] at hr
    obtain ⟨rfl, rfl⟩ := hr
    refine ⟨rfl, ?_, ?_, ?_⟩
    · intro r2 err2 h2
      simp only [Prod.mk.injEq, Option.some.injEq] at h2
      rw [h2.2]
    · intro resp2 h2
      simp at h2
    · simp

/-- C14 on the two example transports: a reachable root fills in version and links and
keeps the token; an unreachable one returns the error and leaves the client as it was. -/
theorem initialize_frame_witness :
    Initialize exampleHttp ⟨"token", "", []⟩
      = ⟨Outcome.returns (⟨"token", "3.867.0",
          [⟨"me", "https://api.teamsnap.com/v3/me"⟩,
            ⟨"teams", "https://api.teamsnap.com/v3/teams"⟩]⟩, none),
         ["https://api.teamsnap.com/v3/"]⟩ ∧
    (Initialize offlineHttp ⟨"token", "3.1", [⟨"me", "x"⟩]⟩).result
      = Outcome.returns (⟨"token", "3.1", [⟨"me", "x"⟩]⟩,
          some (Error.text "dial tcp: network is unreachable")) :=
  ⟨rfl,
   (initialize_frame offlineHttp ⟨"token", "3.1", [⟨"me", "x"⟩]⟩).2.1 none
      (Error.text "dial tcp: network is unreachable") rfl⟩

/-- C15: `FetchRoot(r)` on a client gives what `Fetch(r, RootLinks)` gives on it, response,
error and calls alike; on a client whose `RootLinks` is empty (one on which `Initialize`
never ran) it fails for every `r` with "No href found for rel: r" and calls `query` not
at all. -/
theorem fetchRoot_eq_fetch (http : Http) (teamSnap : TeamSnap) (rel : String) :
    FetchRoot http teamSnap rel = Fetch http teamSnap rel teamSnap.RootLinks ∧
    (teamSnap.RootLinks = [] →
      FetchRoot http teamSnap rel
        = ⟨(none, some (Error.text ("No href found for rel: " ++ rel))), []⟩) := by
  refine ⟨rfl, ?_⟩
  intro h
  simp [FetchRoot, Fetch, h, findHref, findHrefLoop]

/-- C15 on a fresh client, as the tests build it before `Initialize`. -/
theorem fetchRoot_eq_fetch_witness :
    FetchRoot exampleHttp ⟨"token", "", []⟩ "me"
      = ⟨(none, some (Error.text "No href found for rel: me")), []⟩ :=
  (fetchRoot_eq_fetch exampleHttp ⟨"token", "", []⟩ "me").2 rfl

/-! ### When `ParseInt` succeeds -/

theorem digitVal_lt_ten (c : Char) (d : Nat) (h : digitVal c = some d) (hd : d < 10) :
    isDigitChar c = true ∧ d = c.toNat - 48 := by
  unfold digitVal at h
  split at h
  · rename_i hc
    simp only [Option.some.injEq] at h
    exact ⟨by simp [isDigitChar, hc], h.symm⟩
  · split at h
    · simp only [Option.some.injEq] at h
      omega
    · simp at h

theorem parseUintLoop_cases (s0 : String) (ds : List Char) (n : Nat) :
    (parseUintLoop s0 10 32 ds n).2 = none
    ∨ parseUintLoop s0 10 32 ds n = (0, some (Error.numError "ParseUint" s0 NumErrKind.syn))
    ∨ parseUintLoop s0 10 32 ds n
        = (4294967295, some (Error.numError "ParseUint" s0 NumErrKind.range)) := by
  induction ds generalizing n with
  | nil => exact Or.inl rfl
  | cons c cs ih =>
    rw [parseUintLoop]
    cases digitVal c with
    | none => exact Or.inr (Or.inl rfl)
    | some d =>
      simp only
      split
      · exact Or.inr (Or.inl rfl)
      · split
        · exact Or.inr (Or.inr rfl)
        · split
          · exact Or.inr (Or.inr rfl)
          · exact ih _

theorem parseUintLoop_ok (s0 : String) (ds : List Char) (n : Nat) (hn : n ≤ 4294967295)
    (h : (parseUintLoop s0 10 32 ds n).2 = none) :
    (∀ c ∈ ds, isDigitChar c = true) ∧
    (parseUintLoop s0 10 32 ds n).1 = ds.foldl (fun n c => n * 10 + (c.toNat - 48)) n ∧
    ds.foldl (fun n c => n * 10 + (c.toNat - 48)) n ≤ 4294967295 := by
  induction ds generalizing n with
  | nil => simpa [parseUintLoop] using hn
  | cons c cs ih =>
    rw [parseUintLoop] at h ⊢
    cases hdv : digitVal c with
    | none =>
      rw [hdv] at h
      simp at h
    | some d =>
      rw [hdv] at h
      simp only at h ⊢
      by_cases h1 : d ≥ 10
      · rw [if_pos h1] at h
        simp at h
      · rw [if_neg h1] at h ⊢
        by_cases h2 : n ≥ maxUint64 / 10 + 1
        · rw [if_pos h2] at h
          simp at h
        · rw [if_neg h2] at h ⊢
          have e1 : (n * 10) % 2 ^ 64 = n * 10 := Nat.mod_eq_of_lt (by omega)
          have e2 : (n * 10 + d) % 2 ^ 64 = n * 10 + d := Nat.mod_eq_of_lt (by omega)
          rw [e1, e2] at h ⊢
          by_cases h3 : n * 10 + d < n * 10 ∨ n * 10 + d > 2 ^ 32 - 1
          · rw [if_pos h3] at h
            simp at h
          · rw [if_neg h3] at h ⊢
            obtain ⟨hc, hd⟩ := digitVal_lt_ten c d hdv (by omega)
            have hn1 : n * 10 + d ≤ 4294967295 := by omega
            obtain ⟨hall, hval, hle⟩ := ih (n * 10 + d) hn1 h
            rw [List.foldl_cons, ← hd]
            refine ⟨?_, hval, hle⟩
            intro x hx
            rcases List.mem_cons.mp hx with hx1 | hx1
            · rw [hx1]
              exact hc
            · exact hall x hx1

theorem parseUint_cases (ds : List Char) :
    ((ParseUint ds 10 32).2 = none ∧ ds ≠ [] ∧ (∀ c ∈ ds, isDigitChar c = true) ∧
      (ParseUint ds 10 32).1 = decValue ds ∧ decValue ds ≤ 4294967295)
    ∨ ParseUint ds 10 32
        = (0, some (Error.numError "ParseUint" (String.mk ds) NumErrKind.syn))
    ∨ ParseUint ds 10 32
        = (4294967295, some (Error.numError "ParseUint" (String.mk ds) NumErrKind.range)) := by
  unfold ParseUint
  by_cases hne : ds = []
  · rw [if_pos hne]
    exact Or.inr (Or.inl rfl)
  · rw [if_neg hne]
    rcases parseUintLoop_cases (String.mk ds) ds 0 with h | h | h
    · obtain ⟨hall, hval, hle⟩ := parseUintLoop_ok (String.mk ds) ds 0 (by norm_num) h
      exact Or.inl ⟨h, hne, hall, hval, hle⟩
    · exact Or.inr (Or.inl h)
    · exact Or.inr (Or.inr h)

theorem parseInt_ok (s : String) (h : (ParseInt s 10 32).2 = none) :
    isIntLiteral s = true ∧ (ParseInt s 10 32).1 = literalValue s ∧
    -2147483648 ≤ literalValue s ∧ literalValue s ≤ 2147483647 := by
  rcases hs : s.data with _ | ⟨c, cs⟩
  · simp [ParseInt, hs] at h
  · by_cases hp : c = '+'
    · subst hp
      rcases parseUint_cases cs with ⟨_, hne, hall, hval, hle⟩ | hu | hu
      · have hu : ParseUint cs 10 32 = (decValue cs, none) := by
          rw [← hval]
          exact Prod.ext rfl (by assumption)
        simp only [isIntLiteral, literalValue, hs, splitSign_plus]
        simp [ParseInt, hs, hu] at h ⊢
        split_ifs at h ⊢
        simp_all
        omega
      · simp [ParseInt, hs, hu] at h
      · simp [ParseInt, hs, hu] at h
    · by_cases hm : c = '-'
      · subst hm
        rcases parseUint_cases cs with ⟨_, hne, hall, hval, hle⟩ | hu | hu
        · have hu : ParseUint cs 10 32 = (decValue cs, none) := by
            rw [← hval]
            exact Prod.ext rfl (by assumption)
          simp only [isIntLiteral, literalValue, hs, splitSign_minus]
          simp [ParseInt, hs, hu] at h ⊢
          split_ifs at h ⊢
          simp_all
          omega
        · simp [ParseInt, hs, hu] at h
        · simp [ParseInt, hs, hu] at h
      · rcases parseUint_cases (c :: cs) with ⟨_, hne, hall, hval, hle⟩ | hu | hu
        · have hu : ParseUint (c :: cs) 10 32 = (decValue (c :: cs), none) := by
            rw [← hval]
            exact Prod.ext rfl (by assumption)
          simp only [isIntLiteral, literalValue, hs, splitSign_other c cs hp hm]
          simp [ParseInt, hs, hu, hp, hm] at h ⊢
          split_ifs at h ⊢
          simp_all
          omega
        · simp [ParseInt, hs, hu, hp, hm] at h
        · simp [ParseInt, hs, hu, hp, hm] at h

theorem parseInt_ok_iff (s : String) :
    (ParseInt s 10 32).2 = none
      ↔ (isIntLiteral s = true ∧ -2147483648 ≤ literalValue s ∧ literalValue s ≤ 2147483647) := by
  constructor
  · intro h
    obtain ⟨h1, _, h3, h4⟩ := parseInt_ok s h
    exact ⟨h1, h3, h4⟩
  · rintro ⟨h1, h3, h4⟩
    rw [parseInt_literal s h1 h3 h4]

theorem firstValue_unique (item : Item) (name : String) (v w : Dynamic)
    (hv : FirstValue item name v) (hw : FirstValue item name w) : v = w := by
  have h1 := dataValue_of_firstValue item name v hv
  have h2 := dataValue_of_firstValue item name w hw
  rw [h1] at h2
  exact (Prod.mk.inj h2).1

theorem firstValue_present (item : Item) (name : String) (v : Dynamic)
    (hv : FirstValue item name v) : ¬ ∀ d ∈ item.Data, d.Name ≠ name := by
  intro h
  have h1 := dataValue_of_firstValue item name v hv
  rw [dataValue_absent item name h] at h1
  simp at h1

/-- C16: `DataValueInt(n)` returns an error if and only if no entry is named `n`, or the
first value named `n` is neither a string nor a floating-point number, or it is a string
that is not an optional sign followed by one or more decimal digits denoting a value of
the signed 32-bit range; and where the value is a string and no error is returned, the
result lies in that range. -/
theorem dataValueInt_error_iff (item : Item) (name : String) :
    ((DataValueInt item name).2 ≠ none ↔
      ((∀ d ∈ item.Data, d.Name ≠ name) ∨
       (∃ v : Dynamic, FirstValue item name v ∧
          (∀ s, v ≠ Dynamic.str s) ∧ (∀ f, v ≠ Dynamic.float f)) ∨
       (∃ s : String, FirstValue item name (Dynamic.str s) ∧
          ¬ (isIntLiteral s = true ∧
              -2147483648 ≤ literalValue s ∧ literalValue s ≤ 2147483647)))) ∧
    (∀ s : String, FirstValue item name (Dynamic.str s) →
      (DataValueInt item name).2 = none →
      -2147483648 ≤ (DataValueInt item name).1 ∧ (DataValueInt item name).1 ≤ 2147483647) := by
  constructor
  · rcases firstValue_or_absent item name with habs | ⟨v, hv⟩
    · have hd : DataValueInt item name = (0, some (Error.text "No match found")) := by
        simp [DataValueInt, dataValue_absent item name habs]
      rw [hd]
      exact ⟨fun _ => Or.inl habs, fun _ => by simp⟩
    · have hpres := firstValue_present item name v hv
      have hdv := dataValue_of_firstValue item name v hv
      cases v with
      | str s =>
        have hd : DataValueInt item name = ParseInt s 10 32 := by simp [DataValueInt, hdv]
        rw [hd]
        constructor
        · intro herr
          refine Or.inr (Or.inr ⟨s, hv, ?_⟩)
          intro hlit
          exact herr ((parseInt_ok_iff s).mpr hlit)
        · rintro (h | ⟨w, hw, hns, _⟩ | ⟨t, ht, hnot⟩)
          · exact absurd h hpres
          · exact absurd (firstValue_unique item name _ _ hv hw) (fun h => hns s h.symm)
          · have hst : Dynamic.str s = Dynamic.str t := firstValue_unique item name _ _ hv ht
            simp only [Dynamic.str.injEq] at hst
            subst hst
            intro hok
            exact hnot ((parseInt_ok_iff s).mp hok)
      | float f =>
        have hd : DataValueInt item name = (toInt64 f, none) := by simp [DataValueInt, hdv]
        rw [hd]
        constructor
        · intro herr
          exact absurd rfl herr
        · rintro (h | ⟨w, hw, _, hnf⟩ | ⟨t, ht, _⟩)
          · exact absurd h hpres
          · exact absurd (firstValue_unique item name _ _ hv hw) (fun h => hnf f h.symm)
          · exact absurd (firstValue_unique item name _ _ hv ht) (by simp)
      | bool b =>
        have hd : DataValueInt item name
            = (0, some (Error.text "Unable to convert the value into an int.")) := by
          simp [DataValueInt, hdv]
        rw [hd]
        exact ⟨fun _ => Or.inr (Or.inl ⟨_, hv, by simp, by simp⟩), fun _ => by simp⟩
      | null =>
        have hd : DataValueInt item name
            = (0, some (Error.text "Unable to convert the value into an int.")) := by
          simp [DataValueInt, hdv]
        rw [hd]
        exact ⟨fun _ => Or.inr (Or.inl ⟨_, hv, by simp, by simp⟩), fun _ => by simp⟩
      | array a =>
        have hd : DataValueInt item name
            = (0, some (Error.text "Unable to convert the value into an int.")) := by
          simp [DataValueInt, hdv]
        rw [hd]
        exact ⟨fun _ => Or.inr (Or.inl ⟨_, hv, by simp, by simp⟩), fun _ => by simp⟩
      | object o =>
        have hd : DataValueInt item name
            = (0, some (Error.text "Unable to convert the value into an int.")) := by
          simp [DataValueInt, hdv]
        rw [hd]
        exact ⟨fun _ => Or.inr (Or.inl ⟨_, hv, by simp, by simp⟩), fun _ => by simp⟩
  · intro s hv hok
    have hd : DataValueInt item name = ParseInt s 10 32 := by
      simp [DataValueInt, dataValue_of_firstValue item name _ hv]
    rw [hd] at hok ⊢
    obtain ⟨_, hval, hlo, hhi⟩ := parseInt_ok s hok
    rw [hval]
    exact ⟨hlo, hhi⟩

/-- C16 on four items: an absent field, a boolean, and the strings "2147483648" and "12a"
fail; "-2147483648" succeeds within the range. -/
theorem dataValueInt_error_iff_witness :
    (DataValueInt ⟨"", [⟨"age", Dynamic.bool true⟩], []⟩ "age").2 ≠ none ∧
    (DataValueInt ⟨"", [⟨"age", Dynamic.str "2147483648"⟩], []⟩ "age").2 ≠ none ∧
    (DataValueInt ⟨"", [⟨"age", Dynamic.str "-2147483648"⟩], []⟩ "age") = (-2147483648, none) :=
  ⟨(dataValueInt_error_iff ⟨"", [⟨"age", Dynamic.bool true⟩], []⟩ "age").1.mpr
      (Or.inr (Or.inl ⟨Dynamic.bool true,
        ⟨[], ⟨"age", Dynamic.bool true⟩, [], rfl, by simp, rfl, rfl⟩, by simp, by simp⟩)),
   (dataValueInt_error_iff ⟨"", [⟨"age", Dynamic.str "2147483648"⟩], []⟩ "age").1.mpr
      (Or.inr (Or.inr ⟨"2147483648",
        ⟨[], ⟨"age", Dynamic.str "2147483648"⟩, [], rfl, by simp, rfl, rfl⟩, by decide⟩)),
   by decide⟩

/-- C19: whenever `DataValueInt(n)` or `DataValueTime(n)` returns no error,
`DataValueString(n)` returns no error either; and when `DataValueTime(n)` returns no error
the first value named `n` is a string, the one `time.Parse` was given, and
`DataValueString(n)` returns exactly that string. -/
theorem extractors_agree (now : Time) (item : Item) (name : String) :
    ((DataValueInt item name).2 = none → (DataValueString item name).2 = none) ∧
    ((DataValueTime now item name).2 = none → (DataValueString item name).2 = none) ∧
    ((DataValueTime now item name).2 = none →
      ∃ s : String, FirstValue item name (Dynamic.str s) ∧
        DataValueTime now item name = ParseRFC3339 s ∧
        DataValueString item name = (s, none)) := by
  rcases firstValue_or_absent item name with habs | ⟨v, hv⟩
  · simp [DataValueInt, DataValueTime, DataValueString, dataValue_absent item name habs]
  · have hdv := dataValue_of_firstValue item name v hv
    cases v with
    | str s =>
      refine ⟨fun _ => by simp [DataValueString, hdv], fun _ => by simp [DataValueString, hdv],
        fun _ => ⟨s, hv, by simp [DataValueTime, hdv], by simp [DataValueString, hdv]⟩⟩
    | float f => simp [DataValueInt, DataValueTime, DataValueString, hdv]
    | bool b => simp [DataValueInt, DataValueTime, DataValueString, hdv]
    | null => simp [DataValueInt, DataValueTime, DataValueString, hdv]
    | array a => simp [DataValueInt, DataValueTime, DataValueString, hdv]
    | object o => simp [DataValueInt, DataValueTime, DataValueString, hdv]

/-- C19 on the data `created_at = "2023-01-01T00:00:00Z"`: the time parses, and the string
extractor returns the stored text. -/
theorem extractors_agree_witness :
    (DataValueTime ⟨63900000000, 0, 0⟩
      ⟨"", [⟨"created_at", Dynamic.str "2023-01-01T00:00:00Z"⟩], []⟩ "created_at").2 = none ∧
    (DataValueString
      ⟨"", [⟨"created_at", Dynamic.str "2023-01-01T00:00:00Z"⟩], []⟩ "created_at").2 = none :=
  ⟨by decide,
   (extractors_agree ⟨63900000000, 0, 0⟩
      ⟨"", [⟨"created_at", Dynamic.str "2023-01-01T00:00:00Z"⟩], []⟩ "created_at").2.1
      (by decide)⟩

end Teamsnap
